import Mathlib

/-!
# Open File plugin (`open_file.c`): a shallow embedding and its properties

The C strings of the program are Lean `String`s (no embedded NUL), a `gchar*`
that may be `NULL` is an `Option String`, a `GtkListStore` is the list of its
rows, and the callbacks are functions on the explicit plugin state.

Library routines the plugin calls (GLib, GTK, libc) are modelled after their
documented behaviour; each such definition says so in its comment.  The
embedding follows the POSIX build (the `#else` branches of `#ifdef WIN32`).
-/

namespace OpenFile

/-! ## Definitions -/

/-! ### GLib string helpers used by `row_visible` -/

/-- GLib `g_str_is_ascii`: every byte of the string is below 128. -/
def g_str_is_ascii (s : String) : Bool :=
  s.toList.all (fun c => decide (c.toNat < 128))

/-- Word characters of GLib `split_words`: `g_unichar_isalnum (c) || g_unichar_ismark (c)`.
On ASCII input there are no marks and `isalnum` is the ASCII class. -/
def is_word_char (c : Char) : Bool :=
  c.isAlphanum

/-- GLib `index_add_folded` on an ASCII word: normalisation is the identity and
`g_utf8_casefold` lowers the letters `A`..`Z`. -/
def index_add_folded (word : List Char) : List Char :=
  word.map Char.toLower

/-- GLib `split_words` (gstrfuncs.c): one pass over the characters; `start` is the
word being read (`none` when `start == NULL`), `result` the folded words found so
far.  A word ends at the first non-word character or at the end of the string. -/
def split_words_loop : List Char → Option (List Char) → List (List Char) → List (List Char)
  | [], none, result => result
  | [], some word, result => result ++ [index_add_folded word]
  | c :: s, none, result =>
      if is_word_char c then split_words_loop s (some [c]) result
      else split_words_loop s none result
  | c :: s, some word, result =>
      if !is_word_char c then split_words_loop s none (result ++ [index_add_folded word])
      else split_words_loop s (some (word ++ [c])) result

/-- GLib `g_str_tokenize_and_fold (string, NULL, &alternates)` on an ASCII string:
the folded words; the list of ASCII alternates is empty for ASCII input. -/
def g_str_tokenize_and_fold (string : String) : List (List Char) :=
  split_words_loop string.toList none []

/-- GLib `g_str_has_prefix (str, prefix)`. -/
def g_str_has_prefix (str pfx : List Char) : Bool :=
  pfx.isPrefixOf str

/-- Inner loop of `g_str_match_string`: is `term` a prefix of one of the hit tokens
(the `goto one_matched` search over `hit_tokens[j]`). -/
def one_matched (term : List Char) : List (List Char) → Bool
  | [] => false
  | hit :: hit_tokens => if g_str_has_prefix hit term then true else one_matched term hit_tokens

/-- Outer loop of `g_str_match_string`: `matched` stays `TRUE` until a term token has
no hit; an empty list of term tokens leaves it `TRUE`. -/
def match_loop (hit_tokens : List (List Char)) : List (List Char) → Bool
  | [] => true
  | term :: term_tokens =>
      if one_matched term hit_tokens then match_loop hit_tokens term_tokens else false

/-- GLib `g_str_match_string (search_term, potential_hit, TRUE)` for ASCII arguments
(gstrfuncs.c): both strings are split into folded words and a hit occurs when each
word of the search term is a prefix of a word of the potential hit.  For an ASCII
potential hit the alternates array is empty, so `accept_alternates` adds nothing. -/
def g_str_match_string (search_term potential_hit : String) (_accept_alternates : Bool) : Bool :=
  match_loop (g_str_tokenize_and_fold potential_hit) (g_str_tokenize_and_fold search_term)

/-- GLib `g_strcmp0 (str1, str2) == 0`: `NULL`-safe string equality. -/
def g_strcmp0_eq (str1 str2 : Option String) : Bool :=
  decide (str1 = str2)

/-! ### The file list and the dialog state -/

/-- A row of the list store built by `get_files`: the columns
`COLUMN_OPEN_FILE_SHORT_NAME` and `COLUMN_OPEN_FILE_PATH`, each a possibly `NULL` string. -/
structure Row where
  short_name : Option String
  path : Option String
  deriving DecidableEq, Repr

/-- The fields of `struct PLUGIN_DATA` that carry data, with each widget replaced by
the value it holds. -/
structure PLUGIN_DATA where
  /-- Rows of `model`, the list store returned by `get_files`. -/
  model : List Row
  /-- Text held by the `text_entry` widget. -/
  text_entry : String
  /-- Pointer `text_value`; `NULL` until the first `on_update_visibilty_elements`. -/
  text_value : Option String
  /-- Rows of `filter`, the `GtkTreeModelFilter` over `model`. -/
  filter : List Row
  /-- Rows of `sorted`, the `GtkTreeModelSort` over `filter`, shown by `tree_view`. -/
  sorted : List Row
  /-- Cursor of `tree_view`: the index of the row it is on, if any. -/
  cursor : Option Nat
  /-- Title of `main_window`. -/
  title : String
  /-- Sensitivity of `open_button`. -/
  open_button_sensitive : Bool
  deriving DecidableEq, Repr

/-- Source `row_visible` (open_file.c:305): a row is shown when the query pointer is
`NULL`, the query is `""`, or the short name is non-`NULL` and
`g_str_match_string (text_value, short_name, TRUE)` holds. -/
def row_visible (row : Row) (plugin_data : PLUGIN_DATA) : Bool :=
  let short_name := row.short_name
  let text_value := plugin_data.text_value
  match text_value with
  | none => true
  | some text =>
      if g_strcmp0_eq (some text) (some "") then true
      else match short_name with
        | none => false
        | some name => g_str_match_string text name true

/-! ### Directory scan -/

/-- An entry returned by `readdir`: `other` when `d_type != DT_DIR`, `dir` when
`d_type == DT_DIR`.  For a directory entry, `sub` is what `opendir` yields on the
path built from it: `none` when `opendir` fails, else the entries `readdir` returns
there, in order. -/
inductive Dirent where
  | other (d_name : String) : Dirent
  | dir (d_name : String) (sub : Option (List Dirent)) : Dirent

/-- A configured location (`typedef struct { gchar* path; gchar* pattern; } Location`). -/
structure Location where
  path : String
  pattern : String
  deriving DecidableEq, Repr

/-- The library and system calls of the scan, as the program sees them. -/
structure Env where
  /-- Call `fnmatch (pattern, string, 0)`: `0` on a match. -/
  fnmatch : String → String → Int
  /-- Call `g_build_filename (first, second, NULL)`. -/
  g_build_filename : String → String → String
  /-- Call `wordexp (words, &expanded_path, 0)`: `none` when it returns an error and
  leaves `expanded_path` unset, else the words `we_wordv[0 .. we_wordc)`. -/
  wordexp : String → Option (List String)
  /-- Call `opendir (path)` on a root path, with the entries `readdir` then returns. -/
  opendir : String → Option (List Dirent)

mutual
/-- Source `list_directory` (open_file.c:192), `dir` being the result of
`opendir (path)`: return at once when `opendir` fails or the first `readdir` gives
`NULL`, else run the `do ... while` loop over the entries. -/
def list_directory (env : Env) (store : List Row) (dir : Option (List Dirent))
    (path pattern : String) : List Row :=
  match dir with
  | none => store
  | some entries =>
      match entries with
      | [] => store
      | _ :: _ => list_directory_loop env store entries path pattern
/-- The `do ... while ((entry = readdir (dir)))` loop of `list_directory`. -/
def list_directory_loop (env : Env) (store : List Row) (entries : List Dirent)
    (path pattern : String) : List Row :=
  match entries with
  | [] => store
  | entry :: rest =>
      list_directory_loop env (list_directory_entry env store entry path pattern) rest path pattern
/-- One pass through the loop body of `list_directory` for `entry`: a directory other
than `.` and `..` is scanned recursively under `g_build_filename (path, d_name)`; any
other entry is appended as the row `(d_name, path)` when `fnmatch` returns `0`. -/
def list_directory_entry (env : Env) (store : List Row) (entry : Dirent)
    (path pattern : String) : List Row :=
  match entry with
  | .dir d_name sub =>
      if d_name = "." ∨ d_name = ".." then store
      else
        let new_path := env.g_build_filename path d_name
        list_directory env store sub new_path pattern
  | .other d_name =>
      if env.fnmatch pattern d_name = 0 then store ++ [⟨some d_name, some path⟩]
      else store
end

/-! ### Stored configuration -/

/-- Group `locations` of the configuration key file: the string lists stored under
the keys `paths` and `patterns` (`none` when the key is absent). -/
structure GKeyFile where
  paths : Option (List String)
  patterns : Option (List String)
  deriving DecidableEq, Repr

/-- GLib `g_key_file_get_string_list`: the list and its length; for an absent key the
result is `NULL` and the length is set to `0`. -/
def g_key_file_get_string_list (value : Option (List String)) : List String × Nat :=
  match value with
  | none => ([], 0)
  | some list => (list, list.length)

/-- Message of the warning dialog of `load_configuration`. -/
def CONFIG_INVALID : String := "Open File configuration file invalid!"

/-- The loop `for (i = 0; i < path_list_len; ++i)` of `load_configuration`; the first
numeric argument counts the iterations left (`path_list_len - i`). -/
def load_configuration_loop (path_list pattern_list : List String) :
    Nat → Nat → List Location → List Location
  | 0, _, locations => locations
  | left + 1, i, locations =>
      if (path_list.getD i "").length = 0 then
        load_configuration_loop path_list pattern_list left (i + 1) locations
      else
        load_configuration_loop path_list pattern_list left (i + 1)
          (locations ++ [⟨path_list.getD i "", pattern_list.getD i ""⟩])

/-- Source `load_configuration` (open_file.c:599).  `config_file` is the configuration
file as `g_key_file_load_from_file` finds it (`none` when it cannot be loaded).  The
result is the location list together with the warnings shown by
`dialogs_show_msgbox`. -/
def load_configuration (config_file : Option GKeyFile) : List Location × List String :=
  match config_file with
  | none => ([], [])
  | some config =>
      let (path_list, path_list_len) := g_key_file_get_string_list config.paths
      let (pattern_list, pattern_list_len) := g_key_file_get_string_list config.patterns
      if pattern_list_len ≠ path_list_len then ([], [CONFIG_INVALID])
      else (load_configuration_loop path_list pattern_list path_list_len 0 [], [])

/-- The `for (iter = locations; ...)` loop of `get_files`.  The call
`list_directory (store, expanded_path.we_wordv[0], location->pattern)` reads the first
expanded word only.  The result is `none` when that pointer is not a string: `wordexp`
failed and left `expanded_path` unset, or it produced no word and `we_wordv[0]` is
`NULL`; passing either to `opendir` is undefined. -/
def get_files_loop (env : Env) : List Location → List Row → Option (List Row)
  | [], store => some store
  | location :: rest, store =>
      match env.wordexp location.path with
      | none => none
      | some [] => none
      | some (word0 :: _) =>
          get_files_loop env rest
            (list_directory env store (env.opendir word0) word0 location.pattern)

/-- Source `get_files` (open_file.c:230): a fresh store filled from every location of
`load_configuration ()`. -/
def get_files (env : Env) (config_file : Option GKeyFile) : Option (List Row) :=
  let store : List Row := []
  let locations := (load_configuration config_file).1
  get_files_loop env locations store

/-! ### Configuration editor -/

/-- Default pattern of a new row (`DEFAULT_PATTERN`, POSIX build). -/
def DEFAULT_PATTERN : String := "*"

/-- Response codes of `GtkDialog`. -/
def GTK_RESPONSE_OK : Int := -5

/-- Response code of the Apply button. -/
def GTK_RESPONSE_APPLY : Int := -10

/-- What `on_configure_response` meets on disk: whether the configuration directory
exists, whether `utils_mkdir` and `utils_write_file` succeed, and the stored file. -/
structure Disk where
  config_dir_is_dir : Bool
  mkdir_ok : Bool
  write_ok : Bool
  config_file : Option GKeyFile
  deriving DecidableEq, Repr

/-- Message of the error dialog of `on_configure_response`. -/
def CONFIG_DIR_ERROR : String := "Plugin configuration directory could not be created."

/-- Source `on_configure_add_language` (open_file.c:705): append the row
`("", DEFAULT_PATTERN)` to the configuration list. -/
def on_configure_add_language (list_store : List Location) : List Location :=
  list_store ++ [⟨"", DEFAULT_PATTERN⟩]

/-- The `do ... while (gtk_tree_model_iter_next ...)` loop of `on_configure_response`:
copy both columns of every row into `path_list` and `pattern_list`. -/
def on_configure_response_loop : List Location → List String → List String →
    List String × List String
  | [], path_list, pattern_list => (path_list, pattern_list)
  | row :: rest, path_list, pattern_list =>
      on_configure_response_loop rest (path_list ++ [row.path]) (pattern_list ++ [row.pattern])

/-- Source `on_configure_response` (open_file.c:826).  For a response other than OK
and Apply nothing happens.  Otherwise both columns are stored as the string lists
`paths` and `patterns`; the file is written unless the configuration directory is
missing and cannot be created, in which case an error is shown.  The key file is held
as its two string lists: `g_key_file_to_data` followed by loading the file gives the
lists back.  Result: the disk afterwards and the errors shown. -/
def on_configure_response (response : Int) (list_store : List Location) (disk : Disk) :
    Disk × List String :=
  if response ≠ GTK_RESPONSE_OK ∧ response ≠ GTK_RESPONSE_APPLY then (disk, [])
  else
    let (path_list, pattern_list) := on_configure_response_loop list_store [] []
    let config : GKeyFile := ⟨some path_list, some pattern_list⟩
    if !disk.config_dir_is_dir && !disk.mkdir_ok then (disk, [CONFIG_DIR_ERROR])
    else
      let disk1 := { disk with config_dir_is_dir := true }
      if disk.write_ok then ({ disk1 with config_file := some config }, [])
      else (disk1, [])

/-! ### Filtered and sorted view -/

/-- Name of the plugin, the first part of the window title. -/
def PLUGIN_NAME : String := "Open File"

/-- GTK's default comparison of two rows on the string column
`COLUMN_OPEN_FILE_SHORT_NAME` (`gtk_tree_data_list_compare_func`): a `NULL` string
counts as `""`, then `g_utf8_collate (stra, strb)`.  GLib's `g_utf8_collate`
normalises the strings and compares them by the rules of the current locale; it is
the parameter `collate`: negative, zero or positive. -/
def compare_short_name (collate : String → String → Int) (a b : Row) : Int :=
  let stra := a.short_name.getD ""
  let strb := b.short_name.getD ""
  collate stra strb

/-- Row `a` may stand before row `b` in ascending order of the short name. -/
def short_name_le (collate : String → String → Int) (a b : Row) : Prop :=
  compare_short_name collate a b ≤ 0

instance short_name_le_decidable (collate : String → String → Int) :
    DecidableRel (short_name_le collate) :=
  fun a b => inferInstanceAs (Decidable (compare_short_name collate a b ≤ 0))

/-- Rows of a `GtkTreeModelSort` sorted ascending on `COLUMN_OPEN_FILE_SHORT_NAME`,
the state `gtk_tree_view_column_clicked (filename_column)` sets up: the child rows
ordered by `compare_short_name` alone.  GTK sorts with the stable
`g_array_sort_with_data`, so rows that compare equal keep the order of the child
model. -/
def gtk_tree_model_sort_rows (collate : String → String → Int) (child : List Row) : List Row :=
  child.insertionSort (short_name_le collate)

/-- Rows of the `GtkTreeModelFilter` after `gtk_tree_model_filter_refilter`: the rows
of `model`, in store order, on which the visible function `row_visible` returns
`TRUE`. -/
def gtk_tree_model_filter_refilter (plugin_data : PLUGIN_DATA) : List Row :=
  plugin_data.model.filter (fun row => row_visible row plugin_data)

/-- Source `count` (open_file.c:259): `(*no_rows)++`. -/
def count (no_rows : Int) : Int :=
  no_rows + 1

/-- GTK `gtk_tree_model_foreach (model, count, &no_rows)`: `count` runs once per row. -/
def gtk_tree_model_foreach_count (rows : List Row) (no_rows : Int) : Int :=
  rows.foldl (fun n _ => count n) no_rows

/-- Source `select_first_row` (open_file.c:271): `gtk_tree_view_set_cursor` on the
path `0`.  GTK puts the cursor on row 0 of the view, and leaves the view without a
cursor when the path names no row. -/
def select_first_row (plugin_data : PLUGIN_DATA) : PLUGIN_DATA :=
  { plugin_data with cursor := if 0 < plugin_data.sorted.length then some 0 else none }

/-- The characters `g_sprintf (buf, "%s %d/%d", PLUGIN_NAME, filtered_rows, total_rows)`
produces in `on_update_visibilty_elements`, the terminating NUL not counted. -/
def g_sprintf_title (filtered_rows total_rows : Int) : String :=
  PLUGIN_NAME ++ " " ++ toString filtered_rows ++ "/" ++ toString total_rows

/-- Size of `gchar buf[20]` in `on_update_visibilty_elements`. -/
def BUF_SIZE : Nat := 20

/-- Source `on_update_visibilty_elements` (open_file.c:280): read the query from the
entry, refilter (the sort model follows its child), count both models, format the
title `"%s %d/%d"` into `gchar buf[20]`, set it, select the first row, and make the
Open button sensitive exactly when `filtered_rows > 0`.  `g_sprintf` does not bound
what it writes: when the characters and their NUL do not fit `buf` the call writes
past the array, the behaviour is undefined and the result is `none`. -/
def on_update_visibilty_elements (collate : String → String → Int) (plugin_data : PLUGIN_DATA) :
    Option PLUGIN_DATA :=
  let pd1 := { plugin_data with text_value := some plugin_data.text_entry }
  let pd2 := { pd1 with filter := gtk_tree_model_filter_refilter pd1 }
  let pd3 := { pd2 with sorted := gtk_tree_model_sort_rows collate pd2.filter }
  let total_rows := gtk_tree_model_foreach_count pd3.model 0
  let filtered_rows := gtk_tree_model_foreach_count pd3.filter 0
  let buf := g_sprintf_title filtered_rows total_rows
  if BUF_SIZE < buf.length + 1 then none
  else
    let pd4 := { pd3 with title := buf }
    let pd5 := select_first_row pd4
    some { pd5 with open_button_sensitive := decide (filtered_rows > 0) }

/-- Source `create_tree_view` (open_file.c:374): `model` comes from `get_files`,
`filter` shows the rows `row_visible` accepts, `sorted` wraps `filter`, and the click
on the file-name column sorts the view ascending on the short name. -/
def create_tree_view (env : Env) (collate : String → String → Int)
    (config_file : Option GKeyFile) (plugin_data : PLUGIN_DATA) : Option PLUGIN_DATA :=
  match get_files env config_file with
  | none => none
  | some model =>
      let pd1 := { plugin_data with model := model }
      let pd2 := { pd1 with filter := gtk_tree_model_filter_refilter pd1 }
      let pd3 := { pd2 with sorted := pd2.filter }
      some { pd3 with sorted := gtk_tree_model_sort_rows collate pd3.sorted }

/-- The zeroed `struct PLUGIN_DATA` of `launch_widget` (`memset (plugin_data, 0, ...)`);
a button that does not exist yet counts as sensitive, as a new button is. -/
def PLUGIN_DATA.zero : PLUGIN_DATA :=
  { model := [], text_entry := "", text_value := none, filter := [], sorted := [],
    cursor := none, title := "", open_button_sensitive := true }

/-- Source `launch_widget` (open_file.c:471): build the view, create the empty entry,
set the title, select the first row and update the visibility elements. -/
def launch_widget (env : Env) (collate : String → String → Int)
    (config_file : Option GKeyFile) : Option PLUGIN_DATA :=
  match create_tree_view env collate config_file PLUGIN_DATA.zero with
  | none => none
  | some pd1 =>
      let pd2 := { pd1 with text_entry := "" }
      let pd3 := { pd2 with title := PLUGIN_NAME }
      let pd4 := select_first_row pd3
      on_update_visibilty_elements collate pd4

/-- The row under the cursor of the tree view: `gtk_tree_view_get_cursor` followed by
`gtk_tree_model_get_iter` on the model of the view, which is `sorted`. -/
def cursor_row (plugin_data : PLUGIN_DATA) : Option Row :=
  match plugin_data.cursor with
  | none => none
  | some i => plugin_data.sorted.get? i

/-- The user edits the query: the `text_entry` widget takes the new text and emits
`changed`, which runs `on_update_visibilty_elements`. -/
def text_entry_changed (collate : String → String → Int) (plugin_data : PLUGIN_DATA)
    (text : String) : Option PLUGIN_DATA :=
  on_update_visibilty_elements collate { plugin_data with text_entry := text }

/-! ### Opening the selected file -/

/-- What a callback of the dialog leaves behind: the paths handed to
`document_open_file`, in order, and whether `main_window` still exists. -/
structure Outcome where
  opened : List String
  window_open : Bool
  deriving DecidableEq, Repr

/-- Source `activate_selected_file_and_quit` (open_file.c:324): take the cursor of the
tree view; when there is one and the model of the view, which is `sorted`, has a row
at it whose two columns are both non-`NULL`, open `g_build_filename (path, short_name)`;
then destroy the window in every case. -/
def activate_selected_file_and_quit (env : Env) (plugin_data : PLUGIN_DATA) : Outcome :=
  let tree_path := plugin_data.cursor
  let opened :=
    match tree_path with
    | none => []
    | some index =>
        match plugin_data.sorted.get? index with
        | none => []
        | some row =>
            match row.short_name, row.path with
            | some short_name, some path => [env.g_build_filename path short_name]
            | _, _ => []
  ⟨opened, false⟩

/-- Source `close_plugin` (open_file.c:410): destroy the window, open nothing. -/
def close_plugin (_plugin_data : PLUGIN_DATA) : Outcome :=
  ⟨[], false⟩

/-- Source `view_on_row_activated` (open_file.c:362). -/
def view_on_row_activated (env : Env) (plugin_data : PLUGIN_DATA) : Outcome :=
  activate_selected_file_and_quit env plugin_data

/-- Source `on_open_button` (open_file.c:453). -/
def on_open_button (env : Env) (plugin_data : PLUGIN_DATA) : Outcome :=
  activate_selected_file_and_quit env plugin_data

/-- Source `on_cancel_button` (open_file.c:446). -/
def on_cancel_button (plugin_data : PLUGIN_DATA) : Outcome :=
  close_plugin plugin_data

/-- Key value of the Return key (`0xff0d`). -/
def GDK_Return : Nat := 0xff0d

/-- Key value of the Escape key. -/
def GDK_Escape : Nat := 65307

/-- Key value of the Down key (`0xff54`). -/
def GDK_Down : Nat := 0xff54

/-- Source `on_key_press` (open_file.c:420): Return activates the selected file,
Escape closes the dialog, Down moves the focus to the tree view, any other key does
nothing here. -/
def on_key_press (env : Env) (keyval : Nat) (plugin_data : PLUGIN_DATA) : Outcome :=
  if keyval = GDK_Return then activate_selected_file_and_quit env plugin_data
  else if keyval = GDK_Escape then close_plugin plugin_data
  else if keyval = GDK_Down then ⟨[], true⟩
  else ⟨[], true⟩

/-! ### Editing a cell of the configuration list -/

/-- The columns of the configuration list (`typedef enum { ... } Column`). -/
inductive Column where
  | COLUMN_CONFIG_PATH : Column
  | COLUMN_CONFIG_PATTERN : Column
  deriving DecidableEq, Repr

/-- The loop `while (text[i] != '\0') ++i;` of `on_configure_cell_edited`. -/
def text_length_loop : List Char → Int → Int
  | [], i => i
  | _ :: text, i => text_length_loop text (i + 1)

/-- GTK `gtk_list_store_set (list_store, &iter, col, text, -1)` on the row under the
iterator: the cell of column `col` takes `text`. -/
def gtk_list_store_set (row : Location) (col : Column) (text : String) : Location :=
  match col with
  | .COLUMN_CONFIG_PATH => { row with path := text }
  | .COLUMN_CONFIG_PATTERN => { row with pattern := text }

/-- Source `on_configure_cell_edited` (open_file.c:679), `path` being the index of the
row the tree path string names: an empty `text` returns at once; otherwise the cell
of column `col` in that row is set.  When the path names no row the iterator is
invalid and `gtk_list_store_set` changes nothing. -/
def on_configure_cell_edited (list_store : List Location) (path : Nat) (text : String)
    (col : Column) : List Location :=
  let i := text_length_loop text.toList 0
  if i = 0 then list_store
  else
    match list_store.get? path with
    | none => list_store
    | some row => list_store.set path (gtk_list_store_set row col text)

/-! ### Reference notions used to state the properties -/

/-- The characters `needle` occur in `hay` as one contiguous run. -/
def is_substring (needle hay : List Char) : Bool :=
  hay.tails.any (fun rest => needle.isPrefixOf rest)

/-- The visibility rule in the words of the specification: the name contains the
query as a case-insensitive substring, anywhere in the name. -/
def spec_is_visible (name query : String) : Bool :=
  is_substring (query.toList.map Char.toLower) (name.toList.map Char.toLower)

/-- The folded words of a string, said directly: cut the characters at every character
that is no letter or digit, drop the empty pieces, lower the letters of the rest. -/
def folded_words (s : String) : List (List Char) :=
  ((s.toList.splitOnP (fun c => !c.isAlphanum)).filter (fun word => !word.isEmpty)).map
    (fun word => word.map Char.toLower)

mutual
/-- Every non-directory entry of the tree whose top level is `entries` and lives at
`path`, as the pair (base name, path of the directory that holds it), in the order a
depth-first walk in `readdir` order meets them. -/
def tree_entries (env : Env) (path : String) (entries : List Dirent) : List (String × String) :=
  match entries with
  | [] => []
  | entry :: rest => subtree_entries env path entry ++ tree_entries env path rest
/-- The part of `tree_entries` under one entry: the entry itself when it is no
directory; nothing for `.`, `..` and a directory that cannot be opened; else the
entries of the subdirectory, which lives at `g_build_filename (path, d_name)`. -/
def subtree_entries (env : Env) (path : String) (entry : Dirent) : List (String × String) :=
  match entry with
  | .other d_name => [(d_name, path)]
  | .dir d_name sub =>
      if d_name = "." ∨ d_name = ".." then []
      else
        match sub with
        | none => []
        | some entries => tree_entries env (env.g_build_filename path d_name) entries
end

/-- The base name of the entry matches the pattern: `fnmatch` returns `0`. -/
def name_matches (env : Env) (pattern : String) (entry : String × String) : Bool :=
  decide (env.fnmatch pattern entry.1 = 0)

/-- The row `list_directory` stores for a file: `(d_name, path)`. -/
def file_row (entry : String × String) : Row :=
  ⟨some entry.1, some entry.2⟩

/-- The rows a scan adds for a list of tree entries: the matching ones, as rows. -/
def matching_rows (env : Env) (pattern : String) (entries : List (String × String)) : List Row :=
  (entries.filter (name_matches env pattern)).map file_row

/-- The rows one location adds to the store in `get_files`: the scan of the first word
of its expanded path (nothing when there is no such word). -/
def first_word_rows (env : Env) (location : Location) : List Row :=
  match env.wordexp location.path with
  | some (word0 :: _) => list_directory env [] (env.opendir word0) word0 location.pattern
  | _ => []

/-! ### A small file system for the worked examples -/

/-- POSIX `fnmatch` with flags `0` on a pattern made of ordinary characters, `*` and
`?` (no bracket expression, no backslash): `*` stands for any run of characters, `?`
for one character. -/
def fnmatch_chars : List Char → List Char → Bool
  | [], string => string.isEmpty
  | p :: pattern, string =>
      if p = '*' then string.tails.any (fun rest => fnmatch_chars pattern rest)
      else
        match string with
        | [] => false
        | c :: rest => (p = '?' || p = c) && fnmatch_chars pattern rest

/-- Result of `fnmatch_chars` as the `int` of `fnmatch`: `0` or `FNM_NOMATCH`. -/
def fnmatch_model (pattern string : String) : Int :=
  if fnmatch_chars pattern.toList string.toList then 0 else 1

/-- GLib `g_build_filename (first, second, NULL)` for a non-empty `first` without a
trailing separator and a plain name `second`: the two joined by one `/`. -/
def build_filename_model (first second : String) : String :=
  first ++ "/" ++ second

/-- Code point order on characters: a proper initial segment first; negative, zero or
positive. -/
def collate_code_points : List Char → List Char → Int
  | [], [] => 0
  | [], _ :: _ => -1
  | _ :: _, [] => 1
  | a :: str1, b :: str2 =>
      if a.toNat < b.toNat then -1
      else if b.toNat < a.toNat then 1
      else collate_code_points str1 str2

/-- Collation of the example machine: what `g_utf8_collate` gives in the `C` locale
for ASCII strings, the order of `strcmp`.  The examples use ASCII names only. -/
def example_collate (str1 str2 : String) : Int :=
  collate_code_points str1.toList str2.toList

/-- Entries of `/proj/src`. -/
def proj_src : List Dirent :=
  [.dir "." none, .dir ".." none, .other "main.c", .other "util.c", .other "notes.txt"]

/-- Entries of `/proj/include`. -/
def proj_include : List Dirent :=
  [.dir "." none, .dir ".." none, .other "util.h"]

/-- Entries of `/proj`: the two directories above, a directory that cannot be opened
and a plain file. -/
def proj : List Dirent :=
  [.dir "." none, .dir ".." none, .dir "src" (some proj_src), .dir "locked" none,
   .other "README", .dir "include" (some proj_include)]

/-- Entries of `/z` and of `/b`: one file `a.c` each. -/
def one_a_c : List Dirent :=
  [.dir "." none, .dir ".." none, .other "a.c"]

/-- The example machine.  `wordexp` splits `"/proj/src /proj/include"` into its two
words, finds no word in `" "`, rejects `"("`, and leaves the other example paths as
one word; `opendir` opens the directories above and nothing else. -/
def example_env : Env where
  fnmatch := fnmatch_model
  g_build_filename := build_filename_model
  wordexp := fun words =>
    if words = "/proj/src /proj/include" then some ["/proj/src", "/proj/include"]
    else if words = " " then some []
    else if words = "(" then none
    else some [words]
  opendir := fun path =>
    if path = "/proj" then some proj
    else if path = "/proj/src" then some proj_src
    else if path = "/proj/include" then some proj_include
    else if path = "/z" then some one_a_c
    else if path = "/b" then some one_a_c
    else none

/-- The file index of the worked example. -/
def scenario_index : List Row :=
  [⟨some "main.c", some "/proj/src"⟩, ⟨some "util.c", some "/proj/src"⟩,
   ⟨some "util.h", some "/proj/include"⟩]

/-- A directory tree as it is on disk: plain files and directories with their
children, the names `.` and `..` not among them. -/
inductive Node where
  | file (name : String) : Node
  | directory (name : String) (children : List Node) : Node

mutual
/-- What `readdir` reports for the children of a directory.  A file system that fills
in `d_type` reports a directory as `DT_DIR`; one that does not (`readdir` then gives
`DT_UNKNOWN`, as ext2 made without the `filetype` feature does) reports every entry,
directories included, with a `d_type` other than `DT_DIR`. -/
def readdir_children (fills_d_type : Bool) (children : List Node) : List Dirent :=
  match children with
  | [] => []
  | child :: rest => readdir_child fills_d_type child :: readdir_children fills_d_type rest
/-- What `readdir` reports for one child; see `readdir_children`. -/
def readdir_child (fills_d_type : Bool) (child : Node) : Dirent :=
  match child with
  | .file name => .other name
  | .directory name children =>
      if fills_d_type then
        .dir name (some (.dir "." none :: .dir ".." none ::
          readdir_children fills_d_type children))
      else .other name
end

/-- The entries `readdir` returns in a directory with the given children: `.` and `..`
first, then the children. -/
def readdir_listing (fills_d_type : Bool) (children : List Node) : List Dirent :=
  (if fills_d_type then [.dir "." none, .dir ".." none] else [.other ".", .other ".."]) ++
    readdir_children fills_d_type children

/-- The tree `/proj` with one subdirectory `src` that holds `main.c`, and one file. -/
def proj_tree : List Node :=
  [.directory "src" [.file "main.c"], .file "README"]

/-- The dialog state that `on_update_visibilty_elements` reaches from the index of the
worked example under the query `util`. -/
def util_view : PLUGIN_DATA :=
  { model := scenario_index, text_entry := "util", text_value := some "util",
    filter := [⟨some "util.c", some "/proj/src"⟩, ⟨some "util.h", some "/proj/include"⟩],
    sorted := [⟨some "util.c", some "/proj/src"⟩, ⟨some "util.h", some "/proj/include"⟩],
    cursor := some 0, title := "Open File 2/3", open_button_sensitive := true }

/-- The dialog state that `on_update_visibilty_elements` reaches from the index of the
worked example under the query `xyz`, which shows no row. -/
def empty_view : PLUGIN_DATA :=
  { model := scenario_index, text_entry := "xyz", text_value := some "xyz",
    filter := [], sorted := [], cursor := none, title := "Open File 0/3",
    open_button_sensitive := false }

/-- A stored configuration with the given paths and patterns. -/
def stored (paths patterns : List String) : Option GKeyFile :=
  some ⟨some paths, some patterns⟩

/-- A dialog state with the given store and query, the views still empty. -/
def dialog (model : List Row) (text_value : Option String) : PLUGIN_DATA :=
  { PLUGIN_DATA.zero with model := model, text_entry := text_value.getD "",
                          text_value := text_value }

/-! ## Theorems -/

/-! ### The row filter -/

theorem one_matched_iff (term : List Char) (hit_tokens : List (List Char)) :
    one_matched term hit_tokens = true ↔ ∃ hit ∈ hit_tokens, term <+: hit := by
  induction hit_tokens with
  | nil => simp [one_matched]
  | cons hit rest ih =>
      by_cases h : term <+: hit
      · simp [one_matched, g_str_has_prefix, h]
      · simp [one_matched, g_str_has_prefix, h, ih]

theorem match_loop_iff (hit_tokens term_tokens : List (List Char)) :
    match_loop hit_tokens term_tokens = true ↔
      ∀ term ∈ term_tokens, ∃ hit ∈ hit_tokens, term <+: hit := by
  induction term_tokens with
  | nil => simp [match_loop]
  | cons term rest ih =>
      by_cases h : one_matched term hit_tokens = true
      · have h2 := (one_matched_iff term hit_tokens).1 h
        simp [match_loop, h, ih, h2]
      · have h2 : ¬ ∃ hit ∈ hit_tokens, term <+: hit := fun hh =>
          h ((one_matched_iff term hit_tokens).2 hh)
        simp only [match_loop, h, List.mem_cons, forall_eq_or_imp]
        simp [h2]

theorem split_words_loop_eq (s : List Char) :
    (∀ result : List (List Char),
      split_words_loop s none result =
        result ++ ((s.splitOnP (fun c => !is_word_char c)).filter
          (fun word => !word.isEmpty)).map index_add_folded) ∧
    (∀ (word : List Char) (result : List (List Char)), word ≠ [] →
      split_words_loop s (some word) result =
        result ++ (((s.splitOnP (fun c => !is_word_char c)).modifyHead (word ++ ·)).filter
          (fun word => !word.isEmpty)).map index_add_folded) := by
  induction s with
  | nil =>
      refine ⟨fun result => ?_, fun word result hword => ?_⟩
      · simp [split_words_loop, List.splitOnP_nil]
      · have hw : word.isEmpty = false := by
          cases word with
          | nil => exact absurd rfl hword
          | cons a w => rfl
        simp [split_words_loop, List.splitOnP_nil, List.modifyHead, hw]
  | cons c s ih =>
      obtain ⟨ih1, ih2⟩ := ih
      refine ⟨fun result => ?_, fun word result hword => ?_⟩
      · by_cases hc : is_word_char c = true
        · rw [split_words_loop, if_pos hc, ih2 [c] result (by simp), List.splitOnP_cons]
          simp [hc]
        · rw [split_words_loop, if_neg hc, ih1 result, List.splitOnP_cons]
          simp [hc]
      · have hw : word.isEmpty = false := by
          cases word with
          | nil => exact absurd rfl hword
          | cons a w => rfl
        by_cases hc : is_word_char c = true
        · have hn : ¬ ((!is_word_char c) = true) := by simp [hc]
          rw [split_words_loop, if_neg hn, ih2 (word ++ [c]) result (by simp),
            List.splitOnP_cons]
          simp [hc, List.modifyHead_modifyHead, Function.comp_def]
        · have hn : (!is_word_char c) = true := by simpa using hc
          rw [split_words_loop, if_pos hn, ih1, List.splitOnP_cons]
          simp [hn, List.modifyHead, hw]

/-- The tokens of the GLib matcher are the folded words of the string. -/
theorem g_str_tokenize_and_fold_eq (s : String) : g_str_tokenize_and_fold s = folded_words s := by
  unfold g_str_tokenize_and_fold folded_words
  rw [(split_words_loop_eq s.toList).1 []]
  rfl

/-- C1, as the code has it: for a query that is set and not empty, `row_visible` holds
exactly when the row has a name and every word of the query is, case folded, the
beginning of some word of the name, the words of a string being its runs of letters
and digits.  ASCII names and queries, for which the GLib matcher is modelled. -/
theorem row_visible_iff_word_prefixes (row : Row) (plugin_data : PLUGIN_DATA) (query : String)
    (_hascii : g_str_is_ascii query = true ∧
      ∀ name, row.short_name = some name → g_str_is_ascii name = true)
    (hquery : plugin_data.text_value = some query) (hne : query ≠ "") :
    row_visible row plugin_data = true ↔
      ∃ name, row.short_name = some name ∧
        ∀ term ∈ folded_words query, ∃ hit ∈ folded_words name, term <+: hit := by
  unfold row_visible
  simp only [hquery, g_strcmp0_eq]
  have h1 : ¬ (some query = some "") := fun h => hne (Option.some.inj h)
  simp only [h1, decide_False, Bool.false_eq_true, if_false]
  cases hname : row.short_name with
  | none => simp
  | some name =>
      simp [g_str_match_string, match_loop_iff, g_str_tokenize_and_fold_eq]

/-- Witness for C1: the row `Main.c` under the query `mai`. -/
theorem row_visible_iff_word_prefixes_witness :
    row_visible ⟨some "Main.c", some "/proj/src"⟩ (dialog [] (some "mai")) = true ↔
      ∃ name, (⟨some "Main.c", some "/proj/src"⟩ : Row).short_name = some name ∧
        ∀ term ∈ folded_words "mai", ∃ hit ∈ folded_words name, term <+: hit :=
  row_visible_iff_word_prefixes ⟨some "Main.c", some "/proj/src"⟩ (dialog [] (some "mai")) "mai"
    ⟨by decide, by intro name h; cases h; decide⟩ rfl (by decide)

theorem row_visible_main_c :
    row_visible ⟨some "Main.c", some "/proj/src"⟩ (dialog [] (some "mai")) = true ∧
    row_visible ⟨some "Main.c", some "/proj/src"⟩ (dialog [] (some "C")) = true ∧
    row_visible ⟨some "Main.c", some "/proj/src"⟩ (dialog [] (some "xyz")) = false ∧
    row_visible ⟨none, some "/proj/src"⟩ (dialog [] (some "mai")) = false := by
  decide

/-- C1 fails as stated: `ain` is a case-insensitive substring of `Main.c`, yet the row
`Main.c` is not visible under the query `ain`; and the row is visible under the
query `main c`, which is no substring of its name. -/
theorem row_visible_not_substring :
    (spec_is_visible "Main.c" "ain" = true ∧
      row_visible ⟨some "Main.c", some "/proj/src"⟩ (dialog [] (some "ain")) = false) ∧
    (spec_is_visible "Main.c" "main c" = false ∧
      row_visible ⟨some "Main.c", some "/proj/src"⟩ (dialog [] (some "main c")) = true) := by
  decide

/-- C2: when the query pointer is `NULL` or the query is the empty string, every row
is visible, a row without a name included, and refiltering gives the whole store. -/
theorem row_visible_empty_query (plugin_data : PLUGIN_DATA)
    (h : plugin_data.text_value = none ∨ plugin_data.text_value = some "") :
    (∀ row : Row, row_visible row plugin_data = true) ∧
      gtk_tree_model_filter_refilter plugin_data = plugin_data.model := by
  have hall : ∀ row : Row, row_visible row plugin_data = true := by
    intro row
    unfold row_visible
    rcases h with h | h <;> simp [h, g_strcmp0_eq]
  refine ⟨hall, ?_⟩
  unfold gtk_tree_model_filter_refilter
  exact List.filter_eq_self.2 (fun row _ => hall row)

/-- Witness for C2: the empty query over a store that holds a row without a name. -/
theorem row_visible_empty_query_witness :
    (∀ row : Row, row_visible row (dialog [⟨none, none⟩, ⟨some "a.c", some "/z"⟩] (some "")) = true) ∧
      gtk_tree_model_filter_refilter (dialog [⟨none, none⟩, ⟨some "a.c", some "/z"⟩] (some "")) =
        (dialog [⟨none, none⟩, ⟨some "a.c", some "/z"⟩] (some "")).model :=
  row_visible_empty_query (dialog [⟨none, none⟩, ⟨some "a.c", some "/z"⟩] (some "")) (Or.inr rfl)

/-! ### The directory scan -/

theorem matching_rows_append (env : Env) (pattern : String) (xs ys : List (String × String)) :
    matching_rows env pattern (xs ++ ys) =
      matching_rows env pattern xs ++ matching_rows env pattern ys := by
  simp [matching_rows]

theorem list_directory_entry_other (env : Env) (store : List Row) (d_name path pattern : String) :
    list_directory_entry env store (.other d_name) path pattern =
      store ++ matching_rows env pattern (subtree_entries env path (.other d_name)) := by
  rw [list_directory_entry, subtree_entries]
  by_cases h : env.fnmatch pattern d_name = 0 <;>
    simp [matching_rows, name_matches, file_row, h]

theorem list_directory_entry_dots (env : Env) (store : List Row) (d_name path pattern : String)
    (sub : Option (List Dirent)) (h : d_name = "." ∨ d_name = "..") :
    list_directory_entry env store (.dir d_name sub) path pattern =
      store ++ matching_rows env pattern (subtree_entries env path (.dir d_name sub)) := by
  cases sub <;>
    (rw [list_directory_entry, subtree_entries, if_pos h, if_pos h]; simp [matching_rows])

theorem list_directory_entry_closed (env : Env) (store : List Row) (d_name path pattern : String) :
    list_directory_entry env store (.dir d_name none) path pattern =
      store ++ matching_rows env pattern (subtree_entries env path (.dir d_name none)) := by
  rw [list_directory_entry, subtree_entries, list_directory]
  by_cases h : d_name = "." ∨ d_name = ".." <;> simp [matching_rows, h]

theorem list_directory_entry_open (env : Env) (store : List Row) (d_name path pattern : String)
    (entries : List Dirent) (h : ¬ (d_name = "." ∨ d_name = "..")) :
    list_directory_entry env store (.dir d_name (some entries)) path pattern =
        list_directory_loop env store entries (env.g_build_filename path d_name) pattern ∧
      subtree_entries env path (.dir d_name (some entries)) =
        tree_entries env (env.g_build_filename path d_name) entries := by
  rw [list_directory_entry, subtree_entries, if_neg h, if_neg h]
  cases entries with
  | nil => rw [list_directory, list_directory_loop]; simp
  | cons e es => rw [list_directory]; simp

theorem list_directory_loop_cons (env : Env) (store : List Row) (entry : Dirent)
    (rest : List Dirent) (path pattern : String) :
    list_directory_loop env store (entry :: rest) path pattern =
      list_directory_loop env (list_directory_entry env store entry path pattern) rest
        path pattern := by
  rw [list_directory_loop]

theorem tree_entries_cons (env : Env) (path : String) (entry : Dirent) (rest : List Dirent) :
    tree_entries env path (entry :: rest) =
      subtree_entries env path entry ++ tree_entries env path rest := by
  rw [tree_entries]

theorem list_directory_loop_nil (env : Env) (store : List Row) (path pattern : String) :
    list_directory_loop env store [] path pattern =
      store ++ matching_rows env pattern (tree_entries env path []) := by
  simp [list_directory_loop, tree_entries, matching_rows]

mutual
theorem list_directory_loop_eq (env : Env) (store : List Row) (entries : List Dirent)
    (path pattern : String) :
    list_directory_loop env store entries path pattern =
      store ++ matching_rows env pattern (tree_entries env path entries) :=
  match entries with
  | [] => list_directory_loop_nil env store path pattern
  | entry :: rest =>
      (list_directory_loop_cons env store entry rest path pattern).trans
        ((list_directory_loop_eq env _ rest path pattern).trans
          ((congrArg (fun s => s ++ matching_rows env pattern (tree_entries env path rest))
              (list_directory_entry_eq env store entry path pattern)).trans
            ((List.append_assoc _ _ _).trans
              (congrArg (fun t => store ++ t)
                ((matching_rows_append env pattern _ _).symm.trans
                  (congrArg (matching_rows env pattern)
                    (tree_entries_cons env path entry rest).symm))))))
theorem list_directory_entry_eq (env : Env) (store : List Row) (entry : Dirent)
    (path pattern : String) :
    list_directory_entry env store entry path pattern =
      store ++ matching_rows env pattern (subtree_entries env path entry) :=
  match entry with
  | .other d_name => list_directory_entry_other env store d_name path pattern
  | .dir d_name none => list_directory_entry_closed env store d_name path pattern
  | .dir d_name (some entries) =>
      Or.elim (Classical.em (d_name = "." ∨ d_name = ".."))
        (fun h => list_directory_entry_dots env store d_name path pattern (some entries) h)
        (fun h =>
          (list_directory_entry_open env store d_name path pattern entries h).1.trans
            ((list_directory_loop_eq env store entries _ pattern).trans
              (congrArg (fun t => store ++ matching_rows env pattern t)
                (list_directory_entry_open env store d_name path pattern entries h).2.symm)))
end

theorem tree_entries_append (env : Env) (path : String) (xs ys : List Dirent) :
    tree_entries env path (xs ++ ys) = tree_entries env path xs ++ tree_entries env path ys := by
  induction xs with
  | nil => rw [tree_entries]; simp
  | cons x rest ih => rw [List.cons_append, tree_entries_cons, tree_entries_cons, ih,
      List.append_assoc]

theorem list_directory_eq (env : Env) (store : List Row) (dir : Option (List Dirent))
    (path pattern : String) :
    list_directory env store dir path pattern =
      store ++ list_directory env [] dir path pattern := by
  cases dir with
  | none => rw [list_directory, list_directory]; simp
  | some entries =>
      cases entries with
      | nil => rw [list_directory, list_directory]; simp
      | cons e es =>
          rw [list_directory, list_directory, list_directory_loop_eq,
            list_directory_loop_eq env []]
          simp

/-- The scan over entries as `readdir` tags them: on a directory that opens,
`list_directory` leaves the rows already stored in place and appends, in the order of
the depth-first walk, one row `(name, directory)` for each entry not tagged `DT_DIR`
whose name the pattern matches, and nothing else; entries tagged `DT_DIR` other than
`.` and `..` are entered.  For `/proj/src` and `*.c` the rows are `main.c` and
`util.c`. -/
theorem list_directory_rows :
    (∀ (env : Env) (store : List Row) (entries : List Dirent) (path pattern : String),
      list_directory env store (some entries) path pattern =
        store ++ matching_rows env pattern (tree_entries env path entries)) ∧
    list_directory example_env [] (example_env.opendir "/proj/src") "/proj/src" "*.c" =
      [⟨some "main.c", some "/proj/src"⟩, ⟨some "util.c", some "/proj/src"⟩] := by
  refine ⟨?_, by decide⟩
  intro env store entries path pattern
  cases entries with
  | nil => rw [list_directory, tree_entries]; simp [matching_rows]
  | cons e es => rw [list_directory, list_directory_loop_eq]

/-- C3 at the failing input: `/proj` holds the directory `src` with `main.c` in it and
the file `README`.  On a file system whose `readdir` leaves `d_type` unknown the
scan takes `src` for a file: with `*` it stores the rows `.`, `..` and `src`, which
are directories, and never finds `main.c`; with `*.c` it finds nothing.  Where
`d_type` is filled in, the same tree gives `main.c` under `/proj/src`. -/
theorem list_directory_unknown_d_type :
    list_directory example_env [] (some (readdir_listing false proj_tree)) "/proj" "*" =
      [⟨some ".", some "/proj"⟩, ⟨some "..", some "/proj"⟩, ⟨some "src", some "/proj"⟩,
       ⟨some "README", some "/proj"⟩] ∧
    list_directory example_env [] (some (readdir_listing false proj_tree)) "/proj" "*.c" = [] ∧
    list_directory example_env [] (some (readdir_listing true proj_tree)) "/proj" "*" =
      [⟨some "main.c", some "/proj/src"⟩, ⟨some "README", some "/proj"⟩] ∧
    list_directory example_env [] (some (readdir_listing true proj_tree)) "/proj" "*.c" =
      [⟨some "main.c", some "/proj/src"⟩] := by
  decide

theorem list_directory_proj :
    list_directory example_env [] (example_env.opendir "/proj") "/proj" "*.?" =
      [⟨some "main.c", some "/proj/src"⟩, ⟨some "util.c", some "/proj/src"⟩,
       ⟨some "util.h", some "/proj/include"⟩] := by
  decide

/-! ### Scanning the configured locations -/

theorem get_files_loop_eq (env : Env) (locations : List Location) (store : List Row)
    (h : ∀ location ∈ locations, ∃ word0 words, env.wordexp location.path = some (word0 :: words)) :
    get_files_loop env locations store =
      some (store ++ locations.flatMap (first_word_rows env)) := by
  induction locations generalizing store with
  | nil => simp [get_files_loop]
  | cons location rest ih =>
      obtain ⟨word0, words, hw⟩ := h location (List.mem_cons_self _ _)
      have hrest : ∀ l ∈ rest, ∃ word0 words, env.wordexp l.path = some (word0 :: words) :=
        fun l hl => h l (List.mem_cons_of_mem _ hl)
      rw [get_files_loop]
      simp only [hw]
      rw [ih _ hrest, list_directory_eq]
      simp [first_word_rows, hw]

/-- C4, as the code has it: when every location's path expands to at least one word,
`get_files` returns an index, and its rows are exactly the rows found by scanning,
for each location, the first word of the expansion with that location's pattern. -/
theorem get_files_scans_first_word (env : Env) (config_file : Option GKeyFile)
    (h : ∀ location ∈ (load_configuration config_file).1,
      ∃ word0 words, env.wordexp location.path = some (word0 :: words)) :
    ∃ index, get_files env config_file = some index ∧
      ∀ row, row ∈ index ↔
        ∃ location ∈ (load_configuration config_file).1, ∃ word0 words,
          env.wordexp location.path = some (word0 :: words) ∧
          row ∈ list_directory env [] (env.opendir word0) word0 location.pattern := by
  refine ⟨_, by rw [get_files]; exact get_files_loop_eq env _ [] h, ?_⟩
  intro row
  simp only [List.nil_append, List.mem_flatMap]
  constructor
  · rintro ⟨location, hl, hrow⟩
    obtain ⟨word0, words, hw⟩ := h location hl
    refine ⟨location, hl, word0, words, hw, ?_⟩
    simpa [first_word_rows, hw] using hrow
  · rintro ⟨location, hl, word0, words, hw, hrow⟩
    exact ⟨location, hl, by simpa [first_word_rows, hw] using hrow⟩

/-- Witness for C4: the two locations of the worked example. -/
theorem get_files_scans_first_word_witness :
    ∃ index, get_files example_env (stored ["/proj/src", "/proj/include"] ["*.c", "*.h"]) =
        some index ∧
      ∀ row, row ∈ index ↔
        ∃ location ∈
            (load_configuration (stored ["/proj/src", "/proj/include"] ["*.c", "*.h"])).1,
          ∃ word0 words, example_env.wordexp location.path = some (word0 :: words) ∧
            row ∈ list_directory example_env [] (example_env.opendir word0) word0
              location.pattern :=
  get_files_scans_first_word example_env (stored ["/proj/src", "/proj/include"] ["*.c", "*.h"])
    (by
      have hl : (load_configuration (stored ["/proj/src", "/proj/include"] ["*.c", "*.h"])).1 =
          [⟨"/proj/src", "*.c"⟩, ⟨"/proj/include", "*.h"⟩] := by decide
      rw [hl]
      intro location hmem
      simp only [List.mem_cons, List.mem_singleton, List.not_mem_nil, or_false] at hmem
      rcases hmem with rfl | rfl
      · exact ⟨"/proj/src", [], by decide⟩
      · exact ⟨"/proj/include", [], by decide⟩)

/-- C4 fails as stated: the path `/proj/src /proj/include` expands to two directories
and `util.h` in the second one matches `*`, yet the index holds the files of the first
directory only. -/
theorem get_files_misses_second_word :
    example_env.wordexp "/proj/src /proj/include" = some ["/proj/src", "/proj/include"] ∧
    (⟨some "util.h", some "/proj/include"⟩ : Row) ∈
      list_directory example_env [] (example_env.opendir "/proj/include") "/proj/include" "*" ∧
    get_files example_env (stored ["/proj/src /proj/include"] ["*"]) =
      some [⟨some "main.c", some "/proj/src"⟩, ⟨some "util.c", some "/proj/src"⟩,
            ⟨some "notes.txt", some "/proj/src"⟩] ∧
    (⟨some "util.h", some "/proj/include"⟩ : Row) ∉
      [(⟨some "main.c", some "/proj/src"⟩ : Row), ⟨some "util.c", some "/proj/src"⟩,
       ⟨some "notes.txt", some "/proj/src"⟩] := by
  decide

/-- C5 at the failing input: for the path `" "`, which expands to no word, and for the
path `"("`, which `wordexp` rejects, `get_files` hands `opendir` a pointer that is no
string and has no defined result, also when another location could be scanned;
without that location the scan gives its rows. -/
theorem get_files_no_word :
    get_files example_env (stored [" "] ["*"]) = none ∧
    get_files example_env (stored ["("] ["*"]) = none ∧
    get_files example_env (stored ["/proj/src", " "] ["*.c", "*"]) = none ∧
    get_files example_env (stored ["/proj/src"] ["*.c"]) =
      some [⟨some "main.c", some "/proj/src"⟩, ⟨some "util.c", some "/proj/src"⟩] := by
  decide

theorem list_directory_closed_root (env : Env) (store : List Row) (path pattern : String) :
    list_directory env store none path pattern = store := by
  rw [list_directory]

theorem list_directory_loop_closed_subdirectory (env : Env) (store : List Row)
    (before after : List Dirent) (d_name path pattern : String) :
    list_directory_loop env store (before ++ .dir d_name none :: after) path pattern =
      list_directory_loop env store (before ++ after) path pattern := by
  have h : matching_rows env pattern (subtree_entries env path (.dir d_name none)) = [] := by
    have := list_directory_entry_closed env [] d_name path pattern
    rw [list_directory_entry] at this
    by_cases hd : d_name = "." ∨ d_name = ".."
    · simpa [hd] using this.symm
    · rw [if_neg hd, list_directory] at this
      simpa using this.symm
  rw [list_directory_loop_eq, list_directory_loop_eq, tree_entries_append, tree_entries_append,
    tree_entries_cons, matching_rows_append, matching_rows_append, matching_rows_append, h]
  simp

theorem get_files_loop_closed_root (env : Env) (location : Location) (rest : List Location)
    (store : List Row) (word0 : String) (words : List String)
    (hw : env.wordexp location.path = some (word0 :: words)) (hopen : env.opendir word0 = none) :
    get_files_loop env (location :: rest) store = get_files_loop env rest store := by
  rw [get_files_loop]
  simp only [hw, hopen]
  rw [list_directory]

/-! ### Loading and saving the configuration -/

theorem strlen_eq_zero (s : String) : s.length = 0 ↔ s = "" := by
  obtain ⟨data⟩ := s
  constructor
  · intro h
    have hd : data = [] := List.length_eq_zero.1 h
    subst hd
    rfl
  · intro h
    rw [h]
    rfl

/-- The pairs of the two string lists that `load_configuration` keeps: those whose
path is not the empty string, in order. -/
theorem load_configuration_loop_eq (path_list pattern_list : List String)
    (hlen : path_list.length = pattern_list.length) (left i : Nat) (locations : List Location)
    (hi : i + left = path_list.length) :
    load_configuration_loop path_list pattern_list left i locations =
      locations ++
        (((path_list.drop i).zip (pattern_list.drop i)).filter
          (fun pair => decide (pair.1 ≠ ""))).map (fun pair => ⟨pair.1, pair.2⟩) := by
  induction left generalizing i locations with
  | zero =>
      have h1 : path_list.length ≤ i := by omega
      simp [load_configuration_loop, List.drop_eq_nil_of_le h1]
  | succ left ih =>
      have h1 : i < path_list.length := by omega
      have h2 : i < pattern_list.length := by omega
      rw [load_configuration_loop, List.drop_eq_getElem_cons h1, List.drop_eq_getElem_cons h2,
        List.getD_eq_getElem _ _ h1, List.getD_eq_getElem _ _ h2, List.zip_cons_cons]
      by_cases hz : path_list[i] = ""
      · have hl : path_list[i].length = 0 := (strlen_eq_zero _).2 hz
        rw [if_pos hl, ih (i + 1) locations (by omega)]
        simp [hz]
      · have hl : ¬ path_list[i].length = 0 := fun h => hz ((strlen_eq_zero _).1 h)
        rw [if_neg hl, ih (i + 1) _ (by omega)]
        simp [hz]

/-- C6: when the stored `paths` and `patterns` lists differ in length (an absent key
counting as the empty list), `load_configuration` returns no location at all and
shows exactly one warning. -/
theorem load_configuration_length_mismatch (config : GKeyFile)
    (h : (config.paths.getD []).length ≠ (config.patterns.getD []).length) :
    load_configuration (some config) = ([], [CONFIG_INVALID]) := by
  obtain ⟨paths, patterns⟩ := config
  cases paths <;> cases patterns <;>
    simp_all [load_configuration, g_key_file_get_string_list, eq_comm]

/-- Witness for C6: two paths and one pattern give zero locations and one warning. -/
theorem load_configuration_length_mismatch_witness :
    load_configuration (stored ["/proj/src", "/proj/include"] ["*.c"]) =
      ([], [CONFIG_INVALID]) :=
  load_configuration_length_mismatch ⟨some ["/proj/src", "/proj/include"], some ["*.c"]⟩
    (by decide)

/-- C7: when the stored `paths` and `patterns` lists have the same length,
`load_configuration` returns, in index order, the pairs `(paths[i], patterns[i])`
whose path is not the empty string, and shows no warning. -/
theorem load_configuration_pairs (config : GKeyFile)
    (h : (config.paths.getD []).length = (config.patterns.getD []).length) :
    load_configuration (some config) =
      ((((config.paths.getD []).zip (config.patterns.getD [])).filter
          (fun pair => decide (pair.1 ≠ ""))).map (fun pair => ⟨pair.1, pair.2⟩), []) := by
  obtain ⟨paths, patterns⟩ := config
  have key : ∀ ps qs : List String, ps.length = qs.length →
      load_configuration_loop ps qs ps.length 0 [] =
        ((ps.zip qs).filter (fun pair => decide (pair.1 ≠ ""))).map
          (fun pair => ⟨pair.1, pair.2⟩) := by
    intro ps qs hpq
    rw [load_configuration_loop_eq ps qs hpq ps.length 0 [] (by omega)]
    simp
  cases paths with
  | none =>
      cases patterns with
      | none => simp [load_configuration, g_key_file_get_string_list, load_configuration_loop]
      | some qs =>
          have hq : qs = [] := by simpa [eq_comm] using h
          subst hq
          simp [load_configuration, g_key_file_get_string_list, load_configuration_loop]
  | some ps =>
      cases patterns with
      | none =>
          have hp : ps = [] := by simpa using h
          subst hp
          simp [load_configuration, g_key_file_get_string_list, load_configuration_loop]
      | some qs =>
          have hpq : ps.length = qs.length := by simpa using h
          simp only [load_configuration, g_key_file_get_string_list, Option.getD_some]
          rw [if_neg (by simp [hpq]), key ps qs hpq]

/-- Witness for C7: three stored pairs, the middle one with an empty path. -/
theorem load_configuration_pairs_witness :
    load_configuration (stored ["/proj/src", "", "/proj/include"] ["*.c", "*.txt", "*.h"]) =
      ([⟨"/proj/src", "*.c"⟩, ⟨"/proj/include", "*.h"⟩], []) :=
  (load_configuration_pairs ⟨some ["/proj/src", "", "/proj/include"],
    some ["*.c", "*.txt", "*.h"]⟩ (by decide)).trans (by decide)

theorem on_configure_response_loop_eq (list_store : List Location)
    (path_list pattern_list : List String) :
    on_configure_response_loop list_store path_list pattern_list =
      (path_list ++ list_store.map Location.path,
        pattern_list ++ list_store.map Location.pattern) := by
  induction list_store generalizing path_list pattern_list with
  | nil => simp [on_configure_response_loop]
  | cons row rest ih => simp [on_configure_response_loop, ih]

theorem zip_columns_filter (list_store : List Location) :
    ((((list_store.map Location.path).zip (list_store.map Location.pattern)).filter
        (fun pair => decide (pair.1 ≠ ""))).map (fun pair => (⟨pair.1, pair.2⟩ : Location))) =
      list_store.filter (fun row => decide (row.path ≠ "")) := by
  induction list_store with
  | nil => simp
  | cons row rest ih =>
      by_cases hrow : row.path = ""
      · simpa [List.filter_cons, hrow] using ih
      · simpa [List.filter_cons, hrow] using ih

/-- C8, as the code has it: saving the rows of the editor with OK or Apply, the
directory being there or created and the write succeeding, and loading them again
gives the rows whose path is not the empty string, in order and without a warning;
so the list comes back equal when no row has an empty path. -/
theorem save_then_load (response : Int) (list_store : List Location) (disk : Disk)
    (hresponse : response = GTK_RESPONSE_OK ∨ response = GTK_RESPONSE_APPLY)
    (hdir : disk.config_dir_is_dir = true ∨ disk.mkdir_ok = true)
    (hwrite : disk.write_ok = true) :
    load_configuration (on_configure_response response list_store disk).1.config_file =
        (list_store.filter (fun row => decide (row.path ≠ "")), []) ∧
      ((∀ row ∈ list_store, row.path ≠ "") →
        load_configuration (on_configure_response response list_store disk).1.config_file =
          (list_store, [])) := by
  have hsaved : (on_configure_response response list_store disk).1.config_file =
      some ⟨some (list_store.map Location.path), some (list_store.map Location.pattern)⟩ := by
    have h1 : ¬ (response ≠ GTK_RESPONSE_OK ∧ response ≠ GTK_RESPONSE_APPLY) := by
      rcases hresponse with h | h <;> simp [h]
    have h2 : (!disk.config_dir_is_dir && !disk.mkdir_ok) = false := by
      rcases hdir with h | h <;> simp [h]
    simp [on_configure_response, h1, h2, hwrite, on_configure_response_loop_eq]
  have hload : load_configuration (on_configure_response response list_store disk).1.config_file =
      (list_store.filter (fun row => decide (row.path ≠ "")), []) := by
    rw [hsaved]
    simp only [load_configuration, g_key_file_get_string_list]
    rw [if_neg (by simp), load_configuration_loop_eq _ _ (by simp) _ 0 [] (by simp)]
    simp only [List.drop_zero, List.nil_append]
    rw [zip_columns_filter]
  refine ⟨hload, fun hall => ?_⟩
  rw [hload, List.filter_eq_self.2 (fun row hrow => by simpa using hall row hrow)]

/-- Witness for C8: two rows saved with OK into a directory that is yet to be made. -/
theorem save_then_load_witness :
    load_configuration (on_configure_response GTK_RESPONSE_OK
        [⟨"/proj/src", "*.c"⟩, ⟨"/proj/include", "*.h"⟩]
        ⟨false, true, true, none⟩).1.config_file =
      ([⟨"/proj/src", "*.c"⟩, ⟨"/proj/include", "*.h"⟩], []) :=
  (save_then_load GTK_RESPONSE_OK [⟨"/proj/src", "*.c"⟩, ⟨"/proj/include", "*.h"⟩]
    ⟨false, true, true, none⟩ (Or.inl rfl) (Or.inr rfl) rfl).2 (by decide)

/-- C8 fails as stated: the row that `on_configure_add_language` appends has an empty
path; saved with OK and loaded again, the list of one such row comes back empty. -/
theorem save_then_load_drops_empty_path :
    on_configure_add_language [] = [⟨"", DEFAULT_PATTERN⟩] ∧
    load_configuration (on_configure_response GTK_RESPONSE_OK (on_configure_add_language [])
        ⟨true, true, true, none⟩).1.config_file = ([], []) ∧
    (load_configuration (on_configure_response GTK_RESPONSE_OK (on_configure_add_language [])
        ⟨true, true, true, none⟩).1.config_file).1 ≠ on_configure_add_language [] := by
  decide

/-! ### The window title -/

theorem gtk_tree_model_foreach_count_eq (rows : List Row) (no_rows : Int) :
    gtk_tree_model_foreach_count rows no_rows = no_rows + rows.length := by
  unfold gtk_tree_model_foreach_count
  induction rows generalizing no_rows with
  | nil => simp
  | cons row rest ih =>
      rw [List.foldl_cons, ih]
      simp only [count, List.length_cons, Nat.cast_add, Nat.cast_one]
      ring

theorem g_sprintf_title_length (filtered_rows total_rows : Nat) :
    (g_sprintf_title filtered_rows total_rows).length =
      11 + (Nat.repr filtered_rows).length + (Nat.repr total_rows).length := by
  have h1 : toString ((filtered_rows : Nat) : Int) = Nat.repr filtered_rows := rfl
  have h2 : toString ((total_rows : Nat) : Int) = Nat.repr total_rows := rfl
  have h3 : (PLUGIN_NAME ++ " ").length = 10 := by decide
  have h4 : ("/" : String).length = 1 := by decide
  unfold g_sprintf_title
  rw [h1, h2, String.length_append, String.length_append, String.length_append, h3, h4]
  omega

/-- The title and its NUL fit `buf` when the store has at most 9999 rows. -/
theorem title_fits_small (filtered_rows total_rows : Nat) (hle : filtered_rows ≤ total_rows)
    (hsmall : total_rows ≤ 9999) :
    (g_sprintf_title filtered_rows total_rows).length + 1 ≤ BUF_SIZE := by
  have h1 := Nat.repr_length filtered_rows 4 (by decide) (by norm_num; omega)
  have h2 := Nat.repr_length total_rows 4 (by decide) (by norm_num; omega)
  rw [g_sprintf_title_length]
  unfold BUF_SIZE
  omega

/-- What a completed run of `on_update_visibilty_elements` leaves in each field. -/
theorem on_update_fields (collate : String → String → Int) (plugin_data updated : PLUGIN_DATA)
    (h : on_update_visibilty_elements collate plugin_data = some updated) :
    updated.model = plugin_data.model ∧
    updated.text_value = some plugin_data.text_entry ∧
    updated.filter = plugin_data.model.filter (fun row => row_visible row updated) ∧
    updated.sorted = gtk_tree_model_sort_rows collate updated.filter ∧
    updated.cursor = (if 0 < updated.sorted.length then some 0 else none) ∧
    updated.title = g_sprintf_title (gtk_tree_model_foreach_count updated.filter 0)
      (gtk_tree_model_foreach_count plugin_data.model 0) ∧
    updated.title.length + 1 ≤ BUF_SIZE ∧
    updated.open_button_sensitive =
      decide (gtk_tree_model_foreach_count updated.filter 0 > 0) := by
  unfold on_update_visibilty_elements at h
  simp only [] at h
  split at h
  · cases h
  · rename_i hfit
    injection h with h
    subst h
    exact ⟨rfl, rfl, rfl, rfl, rfl, rfl, Nat.le_of_not_lt hfit, rfl⟩

/-- The run of `on_update_visibilty_elements` is undefined exactly when the title and
its NUL do not fit `buf`. -/
theorem on_update_none_iff (collate : String → String → Int) (plugin_data : PLUGIN_DATA) :
    on_update_visibilty_elements collate plugin_data = none ↔
      BUF_SIZE <
        (g_sprintf_title
          ((plugin_data.model.filter (fun row =>
            row_visible row { plugin_data with text_value := some plugin_data.text_entry })).length)
          plugin_data.model.length).length + 1 := by
  have hcount : ∀ rows : List Row, gtk_tree_model_foreach_count rows 0 = (rows.length : Int) := by
    intro rows
    rw [gtk_tree_model_foreach_count_eq]
    simp
  unfold on_update_visibilty_elements
  simp only [hcount, gtk_tree_model_filter_refilter]
  split <;> simp_all

/-- A run of `on_update_visibilty_elements` completes when the store has at most 9999
rows. -/
theorem on_update_completes (collate : String → String → Int) (plugin_data : PLUGIN_DATA)
    (hsmall : plugin_data.model.length ≤ 9999) :
    ∃ updated, on_update_visibilty_elements collate plugin_data = some updated := by
  cases hrun : on_update_visibilty_elements collate plugin_data with
  | some updated => exact ⟨updated, rfl⟩
  | none =>
      have hover := (on_update_none_iff collate plugin_data).1 hrun
      have hfit := title_fits_small _ _ (List.length_filter_le
        (fun row => row_visible row
          { plugin_data with text_value := some plugin_data.text_entry }) plugin_data.model)
        hsmall
      omega

theorem on_update_filter_length (collate : String → String → Int)
    (plugin_data updated : PLUGIN_DATA)
    (h : on_update_visibilty_elements collate plugin_data = some updated) :
    updated.filter.Sublist plugin_data.model := by
  rw [(on_update_fields collate plugin_data updated h).2.2.1]
  exact List.filter_sublist _

/-- C15 at the failing input: with 10000 rows in the store and the empty query the
characters `g_sprintf` produces are `Open File 10000/10000`, 21 of them, so it writes
22 bytes into the 20 bytes of `buf` and the run is undefined; the counts 1000 of
10000 already need 21 bytes, and the largest 32-bit counts need 32. -/
theorem title_overruns_buf :
    g_sprintf_title
        (gtk_tree_model_foreach_count (gtk_tree_model_filter_refilter
          (dialog (List.replicate 10000 ⟨some "a.c", some "/z"⟩) (some ""))) 0)
        (gtk_tree_model_foreach_count
          (dialog (List.replicate 10000 ⟨some "a.c", some "/z"⟩) (some "")).model 0) =
      "Open File 10000/10000" ∧
    ("Open File 10000/10000" : String).length + 1 = 22 ∧
    (g_sprintf_title 1000 10000).length + 1 = 21 ∧
    (g_sprintf_title 2147483647 2147483647).length + 1 = 32 ∧
    BUF_SIZE = 20 ∧
    ∀ collate : String → String → Int,
      on_update_visibilty_elements collate
        (dialog (List.replicate 10000 ⟨some "a.c", some "/z"⟩) (some "")) = none := by
  have hmodel : (dialog (List.replicate 10000 (⟨some "a.c", some "/z"⟩ : Row))
      (some "")).model = List.replicate 10000 ⟨some "a.c", some "/z"⟩ := rfl
  have hvisible : ∀ (pd : PLUGIN_DATA), pd.text_value = some "" →
      (List.replicate 10000 (⟨some "a.c", some "/z"⟩ : Row)).filter
        (fun row => row_visible row pd) = List.replicate 10000 ⟨some "a.c", some "/z"⟩ := by
    intro pd hpd
    apply List.filter_eq_self.2
    intro row _
    unfold row_visible
    simp [hpd, g_strcmp0_eq]
  have htitle : g_sprintf_title 10000 10000 = "Open File 10000/10000" := by decide
  refine ⟨?_, by decide, by decide, by decide, rfl, ?_⟩
  · rw [gtk_tree_model_foreach_count_eq, gtk_tree_model_foreach_count_eq,
      gtk_tree_model_filter_refilter, hmodel, hvisible _ rfl, List.length_replicate]
    exact htitle
  · intro collate
    rw [on_update_none_iff, hmodel, hvisible _ rfl, List.length_replicate]
    have h2 : ((10000 : Nat) : Int) = 10000 := rfl
    rw [h2, htitle]
    decide

/-! ### The sorted view and the selection -/

theorem collate_code_points_total (s t : List Char) :
    collate_code_points s t ≤ 0 ∨ collate_code_points t s ≤ 0 := by
  induction s generalizing t with
  | nil => cases t <;> simp [collate_code_points]
  | cons a s ih =>
      cases t with
      | nil => simp [collate_code_points]
      | cons b t =>
          simp only [collate_code_points]
          by_cases h1 : a.toNat < b.toNat
          · simp [h1]
          · by_cases h2 : b.toNat < a.toNat
            · simp [h1, h2]
            · simpa [h1, h2] using ih t

theorem collate_code_points_trans (s t u : List Char)
    (hst : collate_code_points s t ≤ 0) (htu : collate_code_points t u ≤ 0) :
    collate_code_points s u ≤ 0 := by
  induction s generalizing t u with
  | nil => cases u <;> simp [collate_code_points]
  | cons a s ih =>
      cases t with
      | nil => simp [collate_code_points] at hst
      | cons b t =>
          cases u with
          | nil => simp [collate_code_points] at htu
          | cons c u =>
              simp only [collate_code_points] at hst htu ⊢
              by_cases hab : a.toNat < b.toNat
              · by_cases hbc : b.toNat < c.toNat
                · have hac : a.toNat < c.toNat := by omega
                  simp [hac]
                · by_cases hcb : c.toNat < b.toNat
                  · simp [hbc, hcb] at htu
                  · have hac : a.toNat < c.toNat := by omega
                    simp [hac]
              · by_cases hba : b.toNat < a.toNat
                · simp [hab, hba] at hst
                · simp only [hab, hba, if_false] at hst
                  by_cases hbc : b.toNat < c.toNat
                  · have hac : a.toNat < c.toNat := by omega
                    simp [hac]
                  · by_cases hcb : c.toNat < b.toNat
                    · simp [hbc, hcb] at htu
                    · simp only [hbc, hcb, if_false] at htu
                      have h1 : ¬ a.toNat < c.toNat := by omega
                      have h2 : ¬ c.toNat < a.toNat := by omega
                      simp only [h1, h2, if_false]
                      exact ih t u hst htu

theorem example_collate_total (s t : String) :
    example_collate s t ≤ 0 ∨ example_collate t s ≤ 0 :=
  collate_code_points_total _ _

theorem example_collate_trans (s t u : String) (hst : example_collate s t ≤ 0)
    (htu : example_collate t u ≤ 0) : example_collate s u ≤ 0 :=
  collate_code_points_trans _ _ _ hst htu

theorem short_name_le_total (collate : String → String → Int)
    (htotal : ∀ s t, collate s t ≤ 0 ∨ collate t s ≤ 0) :
    IsTotal Row (short_name_le collate) :=
  ⟨fun _ _ => htotal _ _⟩

theorem short_name_le_trans (collate : String → String → Int)
    (htrans : ∀ s t u, collate s t ≤ 0 → collate t u ≤ 0 → collate s u ≤ 0) :
    IsTrans Row (short_name_le collate) :=
  ⟨fun _ _ _ hab hbc => htrans _ _ _ hab hbc⟩

theorem gtk_tree_model_sort_rows_sorted (collate : String → String → Int)
    (htotal : ∀ s t, collate s t ≤ 0 ∨ collate t s ≤ 0)
    (htrans : ∀ s t u, collate s t ≤ 0 → collate t u ≤ 0 → collate s u ≤ 0)
    (child : List Row) :
    (gtk_tree_model_sort_rows collate child).Sorted (short_name_le collate) := by
  haveI := short_name_le_total collate htotal
  haveI := short_name_le_trans collate htrans
  exact List.sorted_insertionSort _ _

theorem short_name_le_of_eq (collate : String → String → Int)
    (htotal : ∀ s t, collate s t ≤ 0 ∨ collate t s ≤ 0) (a b : Row)
    (h : a.short_name.getD "" = b.short_name.getD "") :
    short_name_le collate a b := by
  unfold short_name_le compare_short_name
  rw [h]
  rcases htotal (b.short_name.getD "") (b.short_name.getD "") with h1 | h1 <;> exact h1

/-- Rows with one and the same name stand in the sorted rows in the order they have in
the child model. -/
theorem gtk_tree_model_sort_rows_stable (collate : String → String → Int)
    (htotal : ∀ s t, collate s t ≤ 0 ∨ collate t s ≤ 0) (child : List Row) (name : String) :
    (gtk_tree_model_sort_rows collate child).filter
        (fun row => decide (row.short_name.getD "" = name)) =
      child.filter (fun row => decide (row.short_name.getD "" = name)) := by
  have hpair : (child.filter (fun row => decide (row.short_name.getD "" = name))).Pairwise
      (short_name_le collate) := by
    rw [List.pairwise_iff_forall_sublist]
    intro a b hab
    have ha : a ∈ child.filter (fun row => decide (row.short_name.getD "" = name)) :=
      hab.subset (by simp)
    have hb : b ∈ child.filter (fun row => decide (row.short_name.getD "" = name)) :=
      hab.subset (by simp)
    simp only [List.mem_filter, decide_eq_true_eq] at ha hb
    exact short_name_le_of_eq collate htotal a b (ha.2.trans hb.2.symm)
  have hsub := List.sublist_insertionSort hpair (List.filter_sublist child)
  have hsub2 := hsub.filter (fun row => decide (row.short_name.getD "" = name))
  rw [List.filter_filter] at hsub2
  simp only [Bool.and_self] at hsub2
  have hperm := (List.perm_insertionSort (short_name_le collate) child).filter
    (fun row => decide (row.short_name.getD "" = name))
  exact (hsub2.eq_of_length hperm.length_eq.symm).symm

theorem row_visible_congr (row : Row) (pd1 pd2 : PLUGIN_DATA)
    (h : pd1.text_value = pd2.text_value) : row_visible row pd1 = row_visible row pd2 := by
  unfold row_visible
  rw [h]

/-- C9, as the code has it: `collate` being the comparison of `g_utf8_collate`, a
total and transitive order, a completed run of `on_update_visibilty_elements` leaves
the store unchanged and the view showing the visible rows, each as often as the
store has it, in ascending order of the name; the path plays no part in the order,
and rows with the same name keep the order they have in the store.  The run
completes when the store has at most 9999 rows. -/
theorem sorted_view_by_name (collate : String → String → Int)
    (htotal : ∀ s t, collate s t ≤ 0 ∨ collate t s ≤ 0)
    (htrans : ∀ s t u, collate s t ≤ 0 → collate t u ≤ 0 → collate s u ≤ 0)
    (plugin_data : PLUGIN_DATA) :
    (∀ updated, on_update_visibilty_elements collate plugin_data = some updated →
      updated.model = plugin_data.model ∧
      updated.sorted.Perm (plugin_data.model.filter (fun row => row_visible row updated)) ∧
      updated.sorted.Sorted (short_name_le collate) ∧
      ∀ name : String,
        updated.sorted.filter (fun row => decide (row.short_name.getD "" = name)) =
          (plugin_data.model.filter (fun row => row_visible row updated)).filter
            (fun row => decide (row.short_name.getD "" = name))) ∧
    (plugin_data.model.length ≤ 9999 →
      ∃ updated, on_update_visibilty_elements collate plugin_data = some updated) := by
  refine ⟨?_, on_update_completes collate plugin_data⟩
  intro updated hrun
  obtain ⟨hmodel, _, hfilter, hsorted, _⟩ := on_update_fields collate plugin_data updated hrun
  rw [hsorted, ← hfilter]
  exact ⟨hmodel, List.perm_insertionSort _ _,
    gtk_tree_model_sort_rows_sorted collate htotal htrans _,
    fun name => gtk_tree_model_sort_rows_stable collate htotal _ name⟩

/-- Witness for C9: the query `util` over the index of the worked example, names in
code point order. -/
theorem sorted_view_by_name_witness :
    util_view.sorted.Sorted (short_name_le example_collate) ∧
      util_view.sorted.Perm (scenario_index.filter (fun row => row_visible row util_view)) :=
  ⟨((sorted_view_by_name example_collate example_collate_total example_collate_trans
      (dialog scenario_index (some "util"))).1 util_view (by decide)).2.2.1,
    ((sorted_view_by_name example_collate example_collate_total example_collate_trans
      (dialog scenario_index (some "util"))).1 util_view (by decide)).2.1⟩

/-- C9 fails as stated: with `a.c` found first under `/z` and then under `/b`, the view
shows the row of `/z` before the row of `/b`, although `/b` sorts before `/z`. -/
theorem same_name_not_by_path :
    (launch_widget example_env example_collate (stored ["/z", "/b"] ["*.c", "*.c"])).map
        PLUGIN_DATA.sorted =
      some [⟨some "a.c", some "/z"⟩, ⟨some "a.c", some "/b"⟩] ∧
    example_collate "/b" "/z" < 0 := by
  decide

/-- C10: a completed run of `on_update_visibilty_elements` that leaves some row
visible leaves the cursor on row 0 of the sorted view, whatever it was on before; the
row under it is the first row of the view and, `collate` being a total and transitive
order, a visible row whose name no visible row precedes.  The run completes when the
store has at most 9999 rows. -/
theorem on_update_selects_first (collate : String → String → Int)
    (plugin_data : PLUGIN_DATA) :
    (∀ updated, on_update_visibilty_elements collate plugin_data = some updated →
      updated.filter ≠ [] →
      updated.cursor = some 0 ∧
      cursor_row updated = (gtk_tree_model_sort_rows collate updated.filter).head? ∧
      ((∀ s t, collate s t ≤ 0 ∨ collate t s ≤ 0) →
        (∀ s t u, collate s t ≤ 0 → collate t u ≤ 0 → collate s u ≤ 0) →
        ∃ row, cursor_row updated = some row ∧ row ∈ updated.filter ∧
          ∀ other ∈ updated.filter, short_name_le collate row other)) ∧
    (plugin_data.model.length ≤ 9999 →
      ∃ updated, on_update_visibilty_elements collate plugin_data = some updated) := by
  refine ⟨?_, on_update_completes collate plugin_data⟩
  intro updated hrun h
  obtain ⟨_, _, _, hs, hc, _⟩ := on_update_fields collate plugin_data updated hrun
  have hlen : updated.sorted.length = updated.filter.length := by
    rw [hs]
    exact List.length_insertionSort _ _
  have hpos : 0 < updated.sorted.length := by
    rw [hlen]
    exact List.length_pos.2 h
  have hcur : updated.cursor = some 0 := by
    rw [hc, if_pos hpos]
  have hrow : cursor_row updated = updated.sorted.head? := by
    unfold cursor_row
    rw [hcur]
    simp [List.head?_eq_getElem?]
  have hmem : ∀ r, r ∈ updated.sorted ↔ r ∈ updated.filter := by
    intro r
    rw [hs]
    exact List.mem_insertionSort _
  refine ⟨hcur, hs ▸ hrow, ?_⟩
  intro htotal htrans
  have hsorted : updated.sorted.Sorted (short_name_le collate) := by
    rw [hs]
    exact gtk_tree_model_sort_rows_sorted collate htotal htrans _
  cases hview : updated.sorted with
  | nil => rw [hview] at hpos; exact absurd hpos (by simp)
  | cons first rest =>
      rw [hview] at hsorted
      refine ⟨first, by rw [hrow, hview]; rfl, (hmem first).1 (by rw [hview]; simp), ?_⟩
      intro other hother
      have ho : other ∈ first :: rest := by rw [← hview]; exact (hmem other).2 hother
      rcases List.mem_cons.1 ho with rfl | ho
      · exact short_name_le_of_eq collate htotal _ _ rfl
      · exact List.rel_of_sorted_cons hsorted other ho

/-- Witness for C10: over the index `main.c`, `util.c`, `util.h` the query `util`
selects `util.c`. -/
theorem on_update_selects_first_witness :
    on_update_visibilty_elements example_collate (dialog scenario_index (some "util")) =
        some util_view ∧
      cursor_row util_view = some ⟨some "util.c", some "/proj/src"⟩ :=
  ⟨by decide,
    (((on_update_selects_first example_collate (dialog scenario_index (some "util"))).1
      util_view (by decide) (by decide)).2.1).trans (by decide)⟩

theorem scenario_query_util :
    get_files example_env (stored ["/proj/src", "/proj/include"] ["*.c", "*.h"]) =
      some scenario_index ∧
    ((launch_widget example_env example_collate
        (stored ["/proj/src", "/proj/include"] ["*.c", "*.h"])).bind
      (fun plugin_data => text_entry_changed example_collate plugin_data "util")).map
        (fun plugin_data => (plugin_data.sorted, cursor_row plugin_data)) =
      some ([⟨some "util.c", some "/proj/src"⟩, ⟨some "util.h", some "/proj/include"⟩],
        some ⟨some "util.c", some "/proj/src"⟩) := by
  decide

/-! ### Opening the selected file -/

theorem activate_without_row (env : Env) (plugin_data : PLUGIN_DATA)
    (h : plugin_data.sorted = []) :
    activate_selected_file_and_quit env plugin_data = ⟨[], false⟩ := by
  unfold activate_selected_file_and_quit
  cases hc : plugin_data.cursor with
  | none => rfl
  | some index => simp [h]

/-- C11: when the cursor is on a row of the sorted, filtered view and that row holds a
name and a directory, `activate_selected_file_and_quit` hands exactly one path to
`document_open_file`, the join `g_build_filename (directory, name)` of that row of
the view, and destroys the window. -/
theorem activate_opens_joined_path (env : Env) (plugin_data : PLUGIN_DATA) (index : Nat)
    (short_name path : String) (hcursor : plugin_data.cursor = some index)
    (hrow : plugin_data.sorted.get? index = some ⟨some short_name, some path⟩) :
    activate_selected_file_and_quit env plugin_data =
      ⟨[env.g_build_filename path short_name], false⟩ := by
  unfold activate_selected_file_and_quit
  simp only [hcursor, hrow]

/-- Witness for C11: under the query `util` the cursor is on row 0 of the view, which
holds `util.c` while row 0 of the store holds `main.c`; the path opened is that of
`util.c`. -/
theorem activate_opens_joined_path_witness :
    on_update_visibilty_elements example_collate (dialog scenario_index (some "util")) =
        some util_view ∧
      util_view.model.head? = some ⟨some "main.c", some "/proj/src"⟩ ∧
      activate_selected_file_and_quit example_env util_view = ⟨["/proj/src/util.c"], false⟩ :=
  ⟨by decide, by decide,
    activate_opens_joined_path example_env util_view 0 "util.c" "/proj/src"
      (by decide) (by decide)⟩

/-- C12: in a dialog whose view shows no row, none of the accept actions (Open button,
Return key, row activation) hands a path to `document_open_file`, wherever the cursor
is said to be; a completed run of `on_update_visibilty_elements` that leaves no row
visible leaves such a view, and it leaves the Open button sensitive exactly when the
number of visible rows is greater than zero.  The run completes when the store has
at most 9999 rows. -/
theorem empty_view_opens_nothing (env : Env) (collate : String → String → Int)
    (plugin_data : PLUGIN_DATA) :
    (∀ (shown : PLUGIN_DATA) (cursor : Option Nat), shown.sorted = [] →
      (on_open_button env { shown with cursor := cursor }).opened = [] ∧
      (on_key_press env GDK_Return { shown with cursor := cursor }).opened = [] ∧
      (view_on_row_activated env { shown with cursor := cursor }).opened = []) ∧
    (∀ updated, on_update_visibilty_elements collate plugin_data = some updated →
      (updated.filter = [] → updated.sorted = [] ∧ updated.cursor = none) ∧
      (updated.open_button_sensitive = true ↔ 0 < updated.filter.length)) ∧
    (plugin_data.model.length ≤ 9999 →
      ∃ updated, on_update_visibilty_elements collate plugin_data = some updated) := by
  refine ⟨?_, ?_, on_update_completes collate plugin_data⟩
  · intro shown cursor hempty
    have hact := activate_without_row env { shown with cursor := cursor } hempty
    refine ⟨?_, ?_, ?_⟩
    · rw [on_open_button, hact]
    · rw [on_key_press, if_pos rfl, hact]
    · rw [view_on_row_activated, hact]
  · intro updated hrun
    obtain ⟨_, _, _, hs, hc, _, _, hb⟩ := on_update_fields collate plugin_data updated hrun
    constructor
    · intro hempty
      have hsorted : updated.sorted = [] := by
        rw [hs, hempty]
        rfl
      refine ⟨hsorted, ?_⟩
      rw [hc, hsorted]
      rfl
    · rw [hb, gtk_tree_model_foreach_count_eq]
      simp

/-- Witness for C12: the query `xyz` over the index of the worked example shows no
row; the button is insensitive and the Return key opens nothing. -/
theorem empty_view_opens_nothing_witness :
    on_update_visibilty_elements example_collate (dialog scenario_index (some "xyz")) =
        some empty_view ∧
    empty_view.open_button_sensitive = false ∧
    (on_key_press example_env GDK_Return { empty_view with cursor := some 0 }).opened = [] :=
  ⟨by decide, by decide,
    ((empty_view_opens_nothing example_env example_collate
      (dialog scenario_index (some "xyz"))).1 empty_view (some 0) rfl).2.1⟩

/-! ### The visible set -/

/-- C13: the visible set that refiltering computes is the sub-sequence of the store
made of the rows on which `row_visible` holds; each visible row is a row of the
store, the filtered count is at most the total count, and two dialogs with the same
store and the same query have the same visible set.  A completed run of
`on_update_visibilty_elements` leaves this visible set for the text of the entry
and leaves the store unchanged; it completes when the store has at most 9999 rows. -/
theorem visible_set_is_filter (collate : String → String → Int) (plugin_data : PLUGIN_DATA) :
    (gtk_tree_model_filter_refilter plugin_data =
        plugin_data.model.filter (fun row => row_visible row plugin_data) ∧
      (gtk_tree_model_filter_refilter plugin_data).Sublist plugin_data.model ∧
      (∀ row ∈ gtk_tree_model_filter_refilter plugin_data, row ∈ plugin_data.model) ∧
      gtk_tree_model_foreach_count (gtk_tree_model_filter_refilter plugin_data) 0 ≤
        gtk_tree_model_foreach_count plugin_data.model 0 ∧
      ∀ other : PLUGIN_DATA, other.model = plugin_data.model →
        other.text_value = plugin_data.text_value →
        gtk_tree_model_filter_refilter other = gtk_tree_model_filter_refilter plugin_data) ∧
    (∀ updated, on_update_visibilty_elements collate plugin_data = some updated →
      updated.model = plugin_data.model ∧
      updated.filter = gtk_tree_model_filter_refilter
        { plugin_data with text_value := some plugin_data.text_entry } ∧
      updated.filter = plugin_data.model.filter (fun row => row_visible row updated) ∧
      updated.filter.Sublist plugin_data.model ∧
      gtk_tree_model_foreach_count updated.filter 0 ≤
        gtk_tree_model_foreach_count updated.model 0 ∧
      ∀ (other : PLUGIN_DATA) (collate2 : String → String → Int) (updated2 : PLUGIN_DATA),
        other.model = plugin_data.model → other.text_entry = plugin_data.text_entry →
        on_update_visibilty_elements collate2 other = some updated2 →
        updated2.filter = updated.filter) ∧
    (plugin_data.model.length ≤ 9999 →
      ∃ updated, on_update_visibilty_elements collate plugin_data = some updated) := by
  have hcount : ∀ l m : List Row, l.Sublist m →
      gtk_tree_model_foreach_count l 0 ≤ gtk_tree_model_foreach_count m 0 := by
    intro l m hlm
    rw [gtk_tree_model_foreach_count_eq, gtk_tree_model_foreach_count_eq]
    have hlen := hlm.length_le
    simp only [zero_add, Nat.cast_le]
    exact hlen
  have hsub : (gtk_tree_model_filter_refilter plugin_data).Sublist plugin_data.model :=
    List.filter_sublist _
  refine ⟨⟨rfl, hsub, fun row hrow => hsub.subset hrow, hcount _ _ hsub, ?_⟩, ?_,
    on_update_completes collate plugin_data⟩
  · intro other hmodel htext
    unfold gtk_tree_model_filter_refilter
    rw [hmodel]
    have hvis : ∀ row, row_visible row other = row_visible row plugin_data :=
      fun row => row_visible_congr row _ _ htext
    simp only [hvis]
  · intro updated hrun
    obtain ⟨hmodel, htext, hfilter, _⟩ := on_update_fields collate plugin_data updated hrun
    have hrefilter : updated.filter = gtk_tree_model_filter_refilter
        { plugin_data with text_value := some plugin_data.text_entry } := by
      rw [hfilter]
      unfold gtk_tree_model_filter_refilter
      have hvis : ∀ row, row_visible row updated = row_visible row
          { plugin_data with text_value := some plugin_data.text_entry } :=
        fun row => row_visible_congr row _ _ htext
      simp only [hvis]
    have hsub2 := on_update_filter_length collate plugin_data updated hrun
    refine ⟨hmodel, hrefilter, hfilter, hsub2, ?_, ?_⟩
    · rw [hmodel]
      exact hcount _ _ hsub2
    · intro other collate2 updated2 hmodel2 htext2 hrun2
      obtain ⟨_, htextv2, hfilter2, _⟩ := on_update_fields collate2 other updated2 hrun2
      rw [hfilter2, hfilter, hmodel2]
      have hvis : ∀ row, row_visible row updated2 = row_visible row updated := by
        intro row
        apply row_visible_congr
        rw [htextv2, htext, htext2]
      simp only [hvis]

/-- Witness for C13: the query `util` over the index of the worked example, in a dialog
with a cursor and a title and in one without. -/
theorem visible_set_is_filter_witness :
    on_update_visibilty_elements example_collate (dialog scenario_index (some "util")) =
        some util_view ∧
    on_update_visibilty_elements example_collate
        { dialog scenario_index (some "util") with cursor := some 2, title := "Open File" } =
      some util_view ∧
    util_view.filter =
      [⟨some "util.c", some "/proj/src"⟩, ⟨some "util.h", some "/proj/include"⟩] :=
  ⟨by decide, by decide,
    (((visible_set_is_filter example_collate (dialog scenario_index (some "util"))).2.1
      util_view (by decide)).2.2.1).trans (by decide)⟩

/-! ### The index as a concatenation -/

theorem get_files_loop_no_word (env : Env) (locations : List Location) (store : List Row)
    (h : ∃ location ∈ locations,
      env.wordexp location.path = none ∨ env.wordexp location.path = some []) :
    get_files_loop env locations store = none := by
  induction locations generalizing store with
  | nil =>
      obtain ⟨location, hmem, _⟩ := h
      exact absurd hmem (List.not_mem_nil _)
  | cons first rest ih =>
      obtain ⟨location, hmem, hw⟩ := h
      rw [get_files_loop]
      cases hfirst : env.wordexp first.path with
      | none => rfl
      | some words =>
          cases words with
          | nil => rfl
          | cons word0 words =>
              rcases List.mem_cons.1 hmem with heq | hrest
              · subst heq
                rcases hw with hw | hw <;> rw [hfirst] at hw <;> cases hw
              · exact ih _ ⟨location, hrest, hw⟩

theorem get_files_loop_some (env : Env) (locations : List Location) (store index : List Row)
    (h : get_files_loop env locations store = some index) :
    ∀ location ∈ locations,
      ∃ word0 words, env.wordexp location.path = some (word0 :: words) := by
  intro location hmem
  cases hw : env.wordexp location.path with
  | none =>
      rw [get_files_loop_no_word env locations store ⟨location, hmem, Or.inl hw⟩] at h
      cases h
  | some words =>
      cases words with
      | nil =>
          rw [get_files_loop_no_word env locations store ⟨location, hmem, Or.inr hw⟩] at h
          cases h
      | cons word0 words => exact ⟨word0, words, rfl⟩

/-- C14: whatever the location list, an index built by `get_files` is the
concatenation, in the order of the location list, of the rows `list_directory` gives
for each location, nothing removed: each row stands in the index as often as the
scans of all locations together give it.  The index is built whenever every
location's path expands to at least one word. -/
theorem get_files_concatenates (env : Env) (config_file : Option GKeyFile) :
    (∀ index : List Row, get_files env config_file = some index →
      index = (load_configuration config_file).1.flatMap (first_word_rows env) ∧
      ∀ row : Row,
        List.count row index =
          ((load_configuration config_file).1.map
            (fun location => List.count row (first_word_rows env location))).sum) ∧
    ((∀ location ∈ (load_configuration config_file).1,
        ∃ word0 words, env.wordexp location.path = some (word0 :: words)) →
      get_files env config_file =
        some ((load_configuration config_file).1.flatMap (first_word_rows env))) := by
  have hbuilt : (∀ location ∈ (load_configuration config_file).1,
      ∃ word0 words, env.wordexp location.path = some (word0 :: words)) →
      get_files env config_file =
        some ((load_configuration config_file).1.flatMap (first_word_rows env)) := by
    intro h
    rw [get_files, get_files_loop_eq env _ [] h]
    rfl
  refine ⟨?_, hbuilt⟩
  intro index hindex
  have hall := get_files_loop_some env (load_configuration config_file).1 [] index hindex
  have heq : index = (load_configuration config_file).1.flatMap (first_word_rows env) := by
    have h2 := hbuilt hall
    rw [hindex] at h2
    exact Option.some.inj h2
  refine ⟨heq, fun row => ?_⟩
  rw [heq, List.count_flatMap]
  rfl

/-- Witness for C14: the roots `/proj` and `/proj/src` overlap, and the files of
`/proj/src` stand twice in the index. -/
theorem get_files_concatenates_witness :
    get_files example_env (stored ["/proj", "/proj/src"] ["*.c", "*.c"]) =
      some [⟨some "main.c", some "/proj/src"⟩, ⟨some "util.c", some "/proj/src"⟩,
            ⟨some "main.c", some "/proj/src"⟩, ⟨some "util.c", some "/proj/src"⟩] :=
  ((get_files_concatenates example_env (stored ["/proj", "/proj/src"] ["*.c", "*.c"])).2
    (by
      have hl : (load_configuration (stored ["/proj", "/proj/src"] ["*.c", "*.c"])).1 =
          [⟨"/proj", "*.c"⟩, ⟨"/proj/src", "*.c"⟩] := by decide
      rw [hl]
      intro location hmem
      simp only [List.mem_cons, List.mem_singleton, List.not_mem_nil, or_false] at hmem
      rcases hmem with rfl | rfl
      · exact ⟨"/proj", [], by decide⟩
      · exact ⟨"/proj/src", [], by decide⟩)).trans (by decide)

/-! ### Editing a cell -/

theorem text_length_loop_eq (text : List Char) (i : Int) :
    text_length_loop text i = i + text.length := by
  induction text generalizing i with
  | nil => simp [text_length_loop]
  | cons c rest ih =>
      rw [text_length_loop, ih]
      simp only [List.length_cons, Nat.cast_add, Nat.cast_one]
      ring

theorem text_length_loop_zero (text : String) :
    text_length_loop text.toList 0 = 0 ↔ text = "" := by
  rw [text_length_loop_eq, ← strlen_eq_zero]
  show (0 : Int) + (text.length : Int) = 0 ↔ text.length = 0
  omega

/-- C16: `on_configure_cell_edited` with the empty text leaves the list as it is; with
any other text the list keeps its length, every row other than the edited one stays
as it is and in place, and the edited row takes the text in the edited column and
keeps its other column. -/
theorem on_configure_cell_edited_frame (list_store : List Location) (path : Nat)
    (text : String) (col : Column) :
    (text = "" → on_configure_cell_edited list_store path text col = list_store) ∧
    (text ≠ "" →
      (on_configure_cell_edited list_store path text col).length = list_store.length ∧
      (∀ other : Nat, other ≠ path →
        (on_configure_cell_edited list_store path text col).get? other =
          list_store.get? other) ∧
      (∀ row : Location, list_store.get? path = some row →
        (col = Column.COLUMN_CONFIG_PATH →
          (on_configure_cell_edited list_store path text col).get? path =
            some ⟨text, row.pattern⟩) ∧
        (col = Column.COLUMN_CONFIG_PATTERN →
          (on_configure_cell_edited list_store path text col).get? path =
            some ⟨row.path, text⟩)) ∧
      (list_store.get? path = none →
        on_configure_cell_edited list_store path text col = list_store)) := by
  constructor
  · intro htext
    unfold on_configure_cell_edited
    simp only [(text_length_loop_zero text).2 htext, if_true]
  · intro htext
    have hi : ¬ text_length_loop text.toList 0 = 0 := fun h =>
      htext ((text_length_loop_zero text).1 h)
    unfold on_configure_cell_edited
    simp only [hi, if_false]
    cases hrow : list_store.get? path with
    | none => simp
    | some row =>
        have hlt : path < list_store.length := by
          rw [List.get?_eq_getElem?] at hrow
          exact (List.getElem?_eq_some_iff.1 hrow).1
        refine ⟨by simp, ?_, ?_, by simp⟩
        · intro other hother
          simp only [List.get?_eq_getElem?, List.getElem?_set]
          rw [if_neg (fun h => hother h.symm)]
        · intro row2 hrow2
          cases hrow2
          constructor
          · intro hcol
            subst hcol
            simp [List.get?_eq_getElem?, List.getElem?_set, hlt, gtk_list_store_set]
          · intro hcol
            subst hcol
            simp [List.get?_eq_getElem?, List.getElem?_set, hlt, gtk_list_store_set]

/-- Witness for C16: the pattern of the second of three rows is edited. -/
theorem on_configure_cell_edited_frame_witness :
    on_configure_cell_edited [⟨"/proj/src", "*.c"⟩, ⟨"/proj/include", "*"⟩, ⟨"/z", "*"⟩] 1 ""
        Column.COLUMN_CONFIG_PATTERN =
      [⟨"/proj/src", "*.c"⟩, ⟨"/proj/include", "*"⟩, ⟨"/z", "*"⟩] ∧
    (on_configure_cell_edited [⟨"/proj/src", "*.c"⟩, ⟨"/proj/include", "*"⟩, ⟨"/z", "*"⟩] 1
        "*.h" Column.COLUMN_CONFIG_PATTERN).get? 1 = some ⟨"/proj/include", "*.h"⟩ :=
  ⟨(on_configure_cell_edited_frame [⟨"/proj/src", "*.c"⟩, ⟨"/proj/include", "*"⟩, ⟨"/z", "*"⟩]
      1 "" Column.COLUMN_CONFIG_PATTERN).1 rfl,
    (((on_configure_cell_edited_frame
      [⟨"/proj/src", "*.c"⟩, ⟨"/proj/include", "*"⟩, ⟨"/z", "*"⟩] 1 "*.h"
      Column.COLUMN_CONFIG_PATTERN).2 (by decide)).2.2.1 ⟨"/proj/include", "*"⟩ rfl).2 rfl⟩

theorem on_configure_cell_edited_example :
    on_configure_cell_edited [⟨"/proj/src", "*.c"⟩, ⟨"/proj/include", "*"⟩, ⟨"/z", "*"⟩] 1
        "*.h" Column.COLUMN_CONFIG_PATTERN =
      [⟨"/proj/src", "*.c"⟩, ⟨"/proj/include", "*.h"⟩, ⟨"/z", "*"⟩] ∧
    on_configure_cell_edited [⟨"/proj/src", "*.c"⟩] 0 "/b" Column.COLUMN_CONFIG_PATH =
      [⟨"/b", "*.c"⟩] ∧
    on_configure_cell_edited [⟨"/proj/src", "*.c"⟩] 5 "/b" Column.COLUMN_CONFIG_PATH =
      [⟨"/proj/src", "*.c"⟩] := by
  decide

end OpenFile
